import Mathlib

/-!
# TODOApp: authorization gate and cursor pagination

A shallow embedding of the request-authorization code of the REST backend
(`project/api`, `project/utils`) and of the role check and the cursor pagination of the
GraphQL gateway (`project/graphql/graph/...`), followed by the properties proved about them.

Conventions of the embedding.

* Go maps with a fixed literal content are association lists; `m[k]` on a missing key gives the
  zero value, the two-result form `v, ok := m[k]` is `List.lookup`.
* An HTTP handler is a function from the request to the trace of effects it performs, in
  program order (`Handler`); a middleware maps a handler to a handler, as
  `func(http.Handler) http.Handler` does.
* Logging is an effect in that trace.  The logger object itself is taken from the environment:
  every request context is assumed to carry the entry that `LoggingMiddleware` stores under
  `utils.Logger` (the root router installs that middleware first, and every test builds its
  context with one), so the type assertion on it is not a failure path of the model.
* Go `int` values are `Int`; the conversion `int32(..)` is `toInt32`, which wraps.
-/

namespace TodoApp

/-! ## `project/graphql/graph/utils` : role table of the GraphQL gateway -/

namespace GraphUtils

def Unknown : String := "unknown"
def Reader : String := "reader"
def Writer : String := "writer"
def Owner : String := "owner"
def Admin : String := "admin"

/-- Rank table `RoleType` (a `map[string]int`). -/
def RoleType : List (String × Int) :=
  [(Unknown, -1), (Reader, 1), (Writer, 2), (Owner, 3), (Admin, 4)]

/-- Directory `users` of the gateway (a `map[string]string`). -/
def users : List (String × String) :=
  [("Niki", Admin), ("Ivan", Writer), ("Miro", Reader), ("Yosif", Writer)]

def GetUserRole (name : String) : String :=
  match users.lookup name with
  | none => Unknown
  | some rank => rank

def CheckIfUserHasPermission (userRole : String) (permissionLevel : String) : Bool :=
  match RoleType.lookup userRole with
  | none => false
  | some user =>
    match RoleType.lookup permissionLevel with
    | none => false
    | some permission => decide (permission ≤ user)

end GraphUtils

/-! ## The role hierarchy as the specification words it -/

/-- The five roles of the hierarchy. -/
inductive RoleName
  | unknown | reader | writer | owner | admin
  deriving DecidableEq, Repr

namespace RoleName

/-- The name under which a role is written in the code. -/
def toString : RoleName → String
  | unknown => "unknown"
  | reader => "reader"
  | writer => "writer"
  | owner => "owner"
  | admin => "admin"

/-- Rank table of the specification: unknown=-1, reader=1, writer=2, owner=3, admin=4. -/
def rank : RoleName → Int
  | unknown => -1
  | reader => 1
  | writer => 2
  | owner => 3
  | admin => 4

end RoleName

/-! ## `project/utils` : role table, directory and ID validation of the REST backend -/

namespace RestUtils

def Unknown : String := "unknown"
def Reader : String := "reader"
def Writer : String := "writer"
def Owner : String := "owner"
def Admin : String := "admin"

/-- Rank table `Role` (a `map[string]int`). -/
def Role : List (String × Int) :=
  [(Unknown, -1), (Reader, 1), (Writer, 2), (Owner, 3), (Admin, 4)]

/-- Index expression `Role[k]`: the zero value when the key is missing. -/
def RoleAt (k : String) : Int := (Role.lookup k).getD 0

/-- Directory `users` (a `map[string]int`), filled from `Role`. -/
def users : List (String × Int) :=
  [("Niki", RoleAt Admin), ("Ivan", RoleAt Writer), ("Miro", RoleAt Reader),
   ("Yosif", RoleAt Writer)]

def GetUsersRights (name : String) : Int :=
  match users.lookup name with
  | none => -1
  | some rank => rank

/-- Values of `uuid.UUID` (an array of bytes). -/
structure UUID where
  bytes : List Nat
  deriving DecidableEq, Repr

/-- The two functions of the `github.com/google/uuid` library that the code calls; the library
is outside the repository, so it is a parameter of the embedding. -/
structure UuidLib where
  /-- The function `uuid.Parse`: `none` stands for a non-nil error. -/
  Parse : String → Option UUID
  /-- The method `UUID.String`, used when an ID is formatted with `%s`. -/
  String : UUID → String

def ValidateStringID (lib : UuidLib) (idStr : String) : Except String UUID :=
  if idStr = "" then
    .error "ID cannot be empty"
  else
    match lib.Parse idStr with
    | none => .error "invalid ID format, must be UUID"
    | some id => .ok id

/-- Index expression `vars[k]` on a `map[string]string`. -/
def mapIndex (vars : List (String × String)) (k : String) : String := (vars.lookup k).getD ""

def GetID (lib : UuidLib) (vars : List (String × String)) (placeholderOfId : String) :
    Except String UUID :=
  let strId := mapIndex vars placeholderOfId
  ValidateStringID lib strId

end RestUtils

/-! ## `project/api` : HTTP model and permission middleware -/

namespace Api

open RestUtils

def http_StatusBadRequest : Nat := 400
def http_StatusUnauthorized : Nat := 401
def http_StatusForbidden : Nat := 403

def username : String := "userId"
def listId : String := "listId"
def basePath : String := "/todo/api"

/-- The parts of `*http.Request` the middleware reads or changes: method and path, the header
(first value per key, as `Header.Get` gives it), the route variables `mux.Vars(r)` and the
string-valued entries of the request context (most recent first). -/
structure Request where
  method : String
  path : String
  header : List (String × String)
  vars : List (String × String)
  ctx : List (String × String)
  deriving DecidableEq, Repr

/-- The call `r.Header.Get(key)`: the empty string when the header is absent. -/
def Request.headerGet (r : Request) (key : String) : String := (r.header.lookup key).getD ""

/-- The call `r.WithContext(context.WithValue(r.Context(), key, val))`. -/
def Request.withValue (r : Request) (key val : String) : Request :=
  { r with ctx := (key, val) :: r.ctx }

/-- Effects of a handler, in program order. -/
inductive Event
  /-- An entry `log.WithField(utils.Status, status).Warn(msg)`. -/
  | warn (status : Nat) (msg : String)
  /-- An entry `log.Info(msg)`. -/
  | info (msg : String)
  /-- A call of `resolver.IsUserPartOfList(ctx, listId, username)`. -/
  | isUserPartOfList (listId : UUID) (user : String)
  /-- A call of `resolver.IsOwnerUserOwnerToListById(ctx, listId, username)`. -/
  | isOwnerUserOwnerToListById (listId : UUID) (user : String)
  /-- A call of `http.Error(w, msg, code)`: writes the status code and the message. -/
  | httpError (msg : String) (code : Nat)
  /-- The call `next.ServeHTTP(w, r)`; the effects of `next` follow it. -/
  | serveNext (r : Request)
  /-- The business handler registered under `name` starts running on `r`. -/
  | business (name : String) (r : Request)
  deriving DecidableEq, Repr

abbrev Handler := Request → List Event

/-- The two methods of the `ResolverList` interface that the middleware calls. -/
structure ResolverList where
  IsOwnerUserOwnerToListById : UUID → String → Bool
  IsUserPartOfList : UUID → String → Bool

structure AuthenticationMiddleware where
  lib : UuidLib
  resolver : ResolverList

def AuthenticationMiddleware.getRole (_amw : AuthenticationMiddleware) (r : Request) : Int :=
  let username := r.headerGet username
  GetUsersRights username

def AuthenticationMiddleware.UserExistenceAuthentication (_amw : AuthenticationMiddleware)
    (next : Handler) : Handler := fun r =>
  let username := r.headerGet username
  if GetUsersRights username < RoleAt Reader then
    [Event.warn http_StatusUnauthorized ("user " ++ username ++ " does not exist"),
     Event.httpError "Unauthorized" http_StatusUnauthorized]
  else
    Event.serveNext r :: next r

def AuthenticationMiddleware.CheckForReaderPermissions (amw : AuthenticationMiddleware)
    (next : Handler) : Handler := fun r =>
  let role := amw.getRole r
  let username := r.headerGet username
  match ValidateStringID amw.lib (mapIndex r.vars listId) with
  | .error err =>
    [Event.warn http_StatusBadRequest err, Event.httpError err http_StatusBadRequest]
  | .ok listId =>
    Event.isUserPartOfList listId username ::
      (if !amw.resolver.IsUserPartOfList listId username && role != RoleAt Admin then
        [Event.warn http_StatusForbidden
           (username ++ " is not authorized as reader in list: " ++ amw.lib.String listId),
         Event.httpError "Forbidden" http_StatusForbidden]
      else
        Event.serveNext r :: next r)

def AuthenticationMiddleware.CheckForWriterPermissions (amw : AuthenticationMiddleware)
    (next : Handler) : Handler := fun r =>
  let listIdLabel := listId
  let username := r.headerGet username
  let listId := mapIndex r.vars listId
  let role := amw.getRole r
  if role < RoleAt Writer then
    [Event.warn http_StatusForbidden
       (username ++ " is not authorized as writer in list: " ++ listId),
     Event.httpError "Forbidden" http_StatusForbidden]
  else
    Event.serveNext (r.withValue listIdLabel listId) :: next (r.withValue listIdLabel listId)

def AuthenticationMiddleware.CheckForOwnerPermissions (amw : AuthenticationMiddleware)
    (next : Handler) : Handler := fun r =>
  let username := r.headerGet username
  match ValidateStringID amw.lib (mapIndex r.vars listId) with
  | .error err =>
    [Event.warn http_StatusBadRequest err, Event.httpError err http_StatusBadRequest]
  | .ok listId =>
    Event.isOwnerUserOwnerToListById listId username ::
      (if !amw.resolver.IsOwnerUserOwnerToListById listId username
          && amw.getRole r != RoleAt Admin then
        [Event.warn http_StatusForbidden
           (username ++ " is not owner nor admin to list: " ++ amw.lib.String listId),
         Event.httpError "Forbidden" http_StatusForbidden]
      else
        Event.serveNext r :: next r)

def AuthenticationMiddleware.CheckForAdminPermissions (_amw : AuthenticationMiddleware)
    (next : Handler) : Handler := fun r =>
  let username := r.headerGet username
  if GetUsersRights username != RoleAt Admin then
    [Event.warn http_StatusForbidden (username ++ " is not admin"),
     Event.httpError "Forbidden" http_StatusForbidden]
  else
    Event.serveNext r :: next r

/-- In the 403 branch the code builds a log entry with `WithFields` but never emits it. -/
def AuthenticationMiddleware.CheckForUserExistenceInList (amw : AuthenticationMiddleware)
    (next : Handler) : Handler := fun r =>
  let username := r.headerGet username
  match GetID amw.lib r.vars listId with
  | .error err =>
    [Event.warn http_StatusBadRequest err, Event.httpError err http_StatusBadRequest]
  | .ok listId =>
    Event.isUserPartOfList listId username ::
      (if !amw.resolver.IsUserPartOfList listId username
          && amw.getRole r != RoleAt Admin then
        [Event.httpError "Forbidden" http_StatusForbidden]
      else
        Event.serveNext r :: next r)

/-- The fields of the entry (method, path, user, a fresh request ID) are not part of the
model; the context passed on gains the user name under the key `username`. -/
def LoggingMiddleware (next : Handler) : Handler := fun r =>
  Event.info "Incoming request" ::
    Event.serveNext (r.withValue username (r.headerGet username)) ::
      next (r.withValue username (r.headerGet username))

/-! ### Reading a trace -/

/-- Status code of the response: the code of the first `http.Error` of the trace. -/
def responseStatus : List Event → Option Nat
  | [] => none
  | Event.httpError _ code :: _ => some code
  | _ :: t => responseStatus t

/-- Whether a `next.ServeHTTP` call occurs in the trace. -/
def nextInvoked (t : List Event) : Bool :=
  t.any fun e => match e with
    | Event.serveNext _ => true
    | _ => false

/-- Whether the resource resolver is called in the trace. -/
def resolverConsulted (t : List Event) : Bool :=
  t.any fun e => match e with
    | Event.isUserPartOfList _ _ => true
    | Event.isOwnerUserOwnerToListById _ _ => true
    | _ => false

/-- Whether a business handler starts running in the trace. -/
def reachesBusiness (t : List Event) : Bool :=
  t.any fun e => match e with
    | Event.business _ _ => true
    | _ => false

/-- A handler that does nothing, to run one middleware on its own. -/
def idle : Handler := fun _ => []

/-! ### `ServerHandler` : the routes and the middleware each one runs behind -/

/-- The subrouters `ServerHandler` creates, named after its variables. -/
inductive Subrouter
  | authenticationAdminSubrouter
  | authenticationReaderSubrouter
  | authenticationWriterSubrouter
  | authenticationForTodoAccessSubrouter
  | authenticationFroTodoModificationSubrouter
  | authenticationOwnerSubrouter
  deriving DecidableEq, Repr

/-- Middleware registered with `router.Use` on the root router, outermost first. -/
def rootMiddlewares (amw : AuthenticationMiddleware) : List (Handler → Handler) :=
  [LoggingMiddleware, amw.UserExistenceAuthentication]

/-- Middleware registered with `Use` on a subrouter and on the subrouters it is nested in,
outermost first.  The todo-modification subrouter is created from the todo-access subrouter
and inherits its middleware. -/
def Subrouter.middlewares (amw : AuthenticationMiddleware) : Subrouter → List (Handler → Handler)
  | authenticationAdminSubrouter => [amw.CheckForAdminPermissions]
  | authenticationReaderSubrouter => [amw.CheckForReaderPermissions]
  | authenticationWriterSubrouter => [amw.CheckForWriterPermissions]
  | authenticationForTodoAccessSubrouter => [amw.CheckForUserExistenceInList]
  | authenticationFroTodoModificationSubrouter =>
      [amw.CheckForUserExistenceInList, amw.CheckForWriterPermissions]
  | authenticationOwnerSubrouter => [amw.CheckForOwnerPermissions]

/-- A route registered with `HandleFunc(..).Methods(..)`. -/
structure Route where
  subrouter : Subrouter
  method : String
  path : String
  handler : String
  deriving DecidableEq, Repr

open Subrouter in
/-- The routes of `ServerHandler`, in registration order. -/
def routes : List Route :=
  [ ⟨authenticationAdminSubrouter, "GET", basePath ++ "/list", "listR.GetAllLists"⟩,
    ⟨authenticationReaderSubrouter, "GET", basePath ++ "/list/{listId}", "listR.GetListById"⟩,
    ⟨authenticationWriterSubrouter, "POST", basePath ++ "/list", "listR.CreateList"⟩,
    ⟨authenticationForTodoAccessSubrouter, "GET",
      basePath ++ "/list/{listId}/todo/{todoId}", "todoR.GetTodo"⟩,
    ⟨authenticationForTodoAccessSubrouter, "GET",
      basePath ++ "/list/{listId}/todos", "todoR.GetAllTasks"⟩,
    ⟨authenticationFroTodoModificationSubrouter, "POST",
      basePath ++ "/list/{listId}/todo", "todoR.CreateTodo"⟩,
    ⟨authenticationFroTodoModificationSubrouter, "PUT",
      basePath ++ "/list/{listId}/todo/{todoId}", "todoR.UpdateTodo"⟩,
    ⟨authenticationFroTodoModificationSubrouter, "DELETE",
      basePath ++ "/list/{listId}/todo/{todoId}", "todoR.DeleteTodo"⟩,
    ⟨authenticationFroTodoModificationSubrouter, "PATCH",
      basePath ++ "/list/{listId}/todo/{todoId}", "todoR.AssignUserToTodo"⟩,
    ⟨authenticationFroTodoModificationSubrouter, "PATCH",
      basePath ++ "/list/{listId}/todo/{todoId}/status", "todoR.ChangeTodoStatus"⟩,
    ⟨authenticationOwnerSubrouter, "PUT", basePath ++ "/list/{listId}", "listR.UpdateList"⟩,
    ⟨authenticationOwnerSubrouter, "DELETE", basePath ++ "/list/{listId}", "listR.DeleteList"⟩,
    ⟨authenticationOwnerSubrouter, "POST",
      basePath ++ "/list/{listId}/users", "listR.AddUserToList"⟩,
    ⟨authenticationOwnerSubrouter, "GET",
      basePath ++ "/list/{listId}/users", "listR.GetUsersFromListById"⟩,
    ⟨authenticationOwnerSubrouter, "DELETE",
      basePath ++ "/list/{listId}/users/{userId}", "listR.RemoveUserFromList"⟩,
    ⟨authenticationOwnerSubrouter, "GET",
      basePath ++ "/list/{listId}/users/{userId}", "listR.GetUserFromListById"⟩ ]

/-- The business handler of a route, seen from the gate: it starts running. -/
def businessHandler (name : String) : Handler := fun r => [Event.business name r]

/-- The handler the router builds for a matched route: the root middleware, then the
middleware of the subrouter chain, then the business handler. -/
def Route.serve (amw : AuthenticationMiddleware) (rt : Route) : Handler :=
  (rootMiddlewares amw ++ rt.subrouter.middlewares amw).foldr (fun mw h => mw h)
    (businessHandler rt.handler)

/-- The role a route requires, as its subrouter is named; the two todo subrouters sit behind
the membership check (reader level) and the writer check. -/
def Subrouter.required : Subrouter → RoleName
  | authenticationAdminSubrouter => RoleName.admin
  | authenticationReaderSubrouter => RoleName.reader
  | authenticationWriterSubrouter => RoleName.writer
  | authenticationForTodoAccessSubrouter => RoleName.reader
  | authenticationFroTodoModificationSubrouter => RoleName.writer
  | authenticationOwnerSubrouter => RoleName.owner

end Api

/-! ## `project/graphql/graph` : cursor pagination of the gateway services -/

namespace Graph

/-- Conversion `int32(n)` of a Go `int`: wraps modulo `2^32` into `[-2^31, 2^31)`. -/
def toInt32 (n : Int) : Int := (n + 2 ^ 31) % 2 ^ 32 - 2 ^ 31

/-- What a Go call ends in: a value, a returned `error` (its text), or a run-time panic. -/
inductive Outcome (α : Type)
  | ok (val : α)
  | err (msg : String)
  | panic
  deriving DecidableEq, Repr

/-- Slice expression `s[lo:hi]`: a run-time panic (`none`) unless `0 ≤ lo ≤ hi ≤ len(s)`.
Go checks `hi` against the capacity; every `hi` the code passes is at most `int32(len(s))`,
which never exceeds `len(s)`. -/
def sliceOf {α : Type} (s : List α) (lo hi : Int) : Option (List α) :=
  if 0 ≤ lo ∧ lo ≤ hi ∧ hi ≤ s.length then
    some ((s.take hi.toNat).drop lo.toNat)
  else
    none

/-- Modelled from the spec: type `model.PageInfo` of the generated package
`project/graphql/graph/model`, which is not among the sources; the three fields the services
assign (the cursors are `*string`). -/
structure PageInfo where
  StartCursor : Option String
  EndCursor : Option String
  HasNextPage : Bool
  deriving DecidableEq, Repr

/-- The value `*new(model.PageInfo)`. -/
def PageInfo.zero : PageInfo := { StartCursor := none, EndCursor := none, HasNextPage := false }

/-- Modelled from the spec: type `model.ListOutput` of the generated package
`project/graphql/graph/model`, which is not among the sources; an item with its ID, and its
name as payload. -/
structure ListOutput where
  ID : String
  Name : String
  deriving DecidableEq, Repr

/-- Modelled from the spec: type `model.TodoOutput` of the generated package
`project/graphql/graph/model`, which is not among the sources; the string fields the
converter fills. -/
structure TodoOutput where
  ID : String
  ListID : String
  Name : String
  Description : String
  Assignee : String
  Status : String
  Priority : String
  deriving DecidableEq, Repr

/-- Modelled from the spec: type `model.ListConnection` of the generated package
`project/graphql/graph/model`, which is not among the sources.  `PageInfo` holds the page
info as it is when the call returns. -/
structure ListConnection where
  TotalCount : Int
  Lists : List ListOutput
  PageInfo : PageInfo
  deriving DecidableEq, Repr

/-- Modelled from the spec: type `model.TodoConnection` of the generated package
`project/graphql/graph/model`, which is not among the sources.  `PageInfo` holds the page
info as it is when the call returns. -/
structure TodoConnection where
  TotalCount : Int
  Todos : List TodoOutput
  PageInfo : PageInfo
  deriving DecidableEq, Repr

/-- The `range` loop of `GetListPosition`, from index `pos` on. -/
def GetListPosition.loop (listId : String) : List ListOutput → Nat → Option Nat
  | [], _ => none
  | list :: rest, pos => if list.ID = listId then some pos else loop listId rest (pos + 1)

def GetListPosition (listId : String) (lists : List ListOutput) : Except String Int :=
  match GetListPosition.loop listId lists 0 with
  | some pos => .ok pos
  | none => .error "list not found"

/-- The `range` loop of `GetTodoPosition`, from index `pos` on. -/
def GetTodoPosition.loop (todoId : String) : List TodoOutput → Nat → Option Nat
  | [], _ => none
  | todo :: rest, pos => if todo.ID = todoId then some pos else loop todoId rest (pos + 1)

def GetTodoPosition (todoId : String) (todos : List TodoOutput) : Except String Int :=
  match GetTodoPosition.loop todoId todos 0 with
  | some pos => .ok pos
  | none => .error "todo not found"

/-- The mutable part of `ServiceList`: the field `pageInfo`. -/
structure ServiceList where
  pageInfo : PageInfo
  deriving DecidableEq, Repr

/-- The service `NewServiceList` returns: `pageInfo` is the zero value. -/
def NewServiceList : ServiceList := { pageInfo := PageInfo.zero }

/-- The end of `GetLists`, from `pageScope := startPos + int(*first)` on. -/
def GetLists.page (sl : ServiceList) (listsOutputs : List ListOutput)
    (totalCount first startPos : Int) : ServiceList × Outcome ListConnection :=
  let pageScope := if startPos + first > totalCount then totalCount else startPos + first
  match sliceOf listsOutputs startPos pageScope with
  | none => (sl, .panic)
  | some pagedLists =>
    match pagedLists.head?, pagedLists.getLast? with
    | some firstItem, some lastItem =>
      let pageInfo : PageInfo :=
        { StartCursor := some firstItem.ID
          EndCursor := some lastItem.ID
          HasNextPage := decide (pageScope < totalCount) }
      ({ pageInfo := pageInfo },
       .ok { TotalCount := totalCount, Lists := pagedLists, PageInfo := pageInfo })
    | _, _ => (sl, .panic)

/-- The pagination of `ServiceList.GetLists`, from `totalCount := int32(len(listsOutputs))`
on: `listsOutputs` is the converted answer of the backend, `first` and `after` are the two
optional arguments, `sl` is the service before the call; the result is the service after the
call and what the call returns. -/
def GetLists (sl : ServiceList) (listsOutputs : List ListOutput) (first : Option Int)
    (after : Option String) : ServiceList × Outcome ListConnection :=
  let totalCount : Int := toInt32 listsOutputs.length
  if first.isNone && after.isNone then
    ({ pageInfo := PageInfo.zero },
     .ok { TotalCount := totalCount, Lists := listsOutputs, PageInfo := PageInfo.zero })
  else
    let first : Int := first.getD totalCount
    let cursor : Option String :=
      match after with
      | some a => some a
      | none => sl.pageInfo.EndCursor
    match cursor with
    | some afterList =>
      match GetListPosition afterList listsOutputs with
      | .error err => ({ pageInfo := PageInfo.zero }, .err err)
      | .ok startPos =>
        if startPos = totalCount - 1 then
          ({ pageInfo := PageInfo.zero }, .err "lists is out of range")
        else
          GetLists.page sl listsOutputs totalCount first (startPos + 1)
    | none => GetLists.page sl listsOutputs totalCount first 0

/-- The method `ServiceList.GetLists` as a whole: `response` is what `SendRequest` followed by
`ConvertResponseToListsOutputs` gives, an error when either of the two fails; the method then
returns that error and leaves the service as it is. -/
def ServiceList.GetLists (sl : ServiceList) (response : Except String (List ListOutput))
    (first : Option Int) (after : Option String) : ServiceList × Outcome ListConnection :=
  match response with
  | .error err => (sl, .err err)
  | .ok listsOutputs => Graph.GetLists sl listsOutputs first after

/-- The mutable part of `ServiceTodo`: the field `pageInfo`. -/
structure ServiceTodo where
  pageInfo : PageInfo
  deriving DecidableEq, Repr

/-- The service `NewServiceTodo` returns: `pageInfo` is the zero value. -/
def NewServiceTodo : ServiceTodo := { pageInfo := PageInfo.zero }

/-- The end of `GetTodosFromList`, from `pageScope := startPos + int(*first)` on. -/
def GetTodosFromList.page (st : ServiceTodo) (todosOutputs : List TodoOutput)
    (totalCount first startPos : Int) : ServiceTodo × Outcome TodoConnection :=
  let pageScope := if startPos + first > totalCount then totalCount else startPos + first
  match sliceOf todosOutputs startPos pageScope with
  | none => (st, .panic)
  | some pagedTodos =>
    match pagedTodos.head?, pagedTodos.getLast? with
    | some firstItem, some lastItem =>
      let pageInfo : PageInfo :=
        { StartCursor := some firstItem.ID
          EndCursor := some lastItem.ID
          HasNextPage := decide (pageScope < totalCount) }
      ({ pageInfo := pageInfo },
       .ok { TotalCount := totalCount, Todos := pagedTodos, PageInfo := pageInfo })
    | _, _ => (st, .panic)

/-- The pagination of `ServiceTodo.GetTodosFromList`, from
`totalCount := int32(len(todosOutputs))` on; arguments and result as for `GetLists`. -/
def GetTodosFromList (st : ServiceTodo) (todosOutputs : List TodoOutput) (first : Option Int)
    (after : Option String) : ServiceTodo × Outcome TodoConnection :=
  let totalCount : Int := toInt32 todosOutputs.length
  if first.isNone && after.isNone then
    ({ pageInfo := PageInfo.zero },
     .ok { TotalCount := totalCount, Todos := todosOutputs, PageInfo := PageInfo.zero })
  else
    let first : Int := first.getD totalCount
    let cursor : Option String :=
      match after with
      | some a => some a
      | none => st.pageInfo.EndCursor
    match cursor with
    | some afterList =>
      match GetTodoPosition afterList todosOutputs with
      | .error err => ({ pageInfo := PageInfo.zero }, .err err)
      | .ok startPos =>
        if startPos = totalCount - 1 then
          ({ pageInfo := PageInfo.zero }, .err "todo is out of range")
        else
          GetTodosFromList.page st todosOutputs totalCount first (startPos + 1)
    | none => GetTodosFromList.page st todosOutputs totalCount first 0

/-- A client that pages through the lists as the round-trip property describes: it asks for
`first = k` starting from `after`, and as long as the page says `hasNextPage` it asks again
with `after` set to that page's end cursor.  The pages are collected in order; an error, a
panic or running out of `fuel` calls gives `none`. -/
def fetchAllLists (listsOutputs : List ListOutput) (k : Int) :
    Nat → ServiceList → Option String → Option (List (List ListOutput))
  | 0, _, _ => none
  | fuel + 1, sl, after =>
    match GetLists sl listsOutputs (some k) after with
    | (sl1, .ok conn) =>
      if conn.PageInfo.HasNextPage then
        (fetchAllLists listsOutputs k fuel sl1 conn.PageInfo.EndCursor).map (conn.Lists :: ·)
      else
        some [conn.Lists]
    | (_, _) => none

/-- Where a call `GetLists(first = k, after)` on the service `sl` starts to read: at index `0`
when there is neither an `after` nor a stored end cursor, and just behind the item whose ID
is `after`. -/
def startsAt (lists : List ListOutput) (sl : ServiceList) (after : Option String) (s : Nat) :
    Prop :=
  (s = 0 ∧ after = none ∧ sl.pageInfo.EndCursor = none) ∨
    (∃ i, ∃ _h : i < lists.length, s = i + 1 ∧ after = some lists[i].ID)

end Graph

/-! ## `project/graphql/graph` : comparing the two paginations -/

namespace Graph

/-- How the result of `GetLists` on `lists` and the result of `GetTodosFromList` on `todos`
are compared: both leave the same page info on the service and either both return a page
(the same total count, the same page info, the same index range `[lo, hi)` of their sequence),
or both return the error of the same kind (the texts name lists resp. todos), or both
panic. -/
def samePagination (lists : List ListOutput) (todos : List TodoOutput) :
    ServiceList × Outcome ListConnection → ServiceTodo × Outcome TodoConnection → Prop
  | (sl, .ok c1), (st, .ok c2) =>
    sl.pageInfo = st.pageInfo ∧ c1.TotalCount = c2.TotalCount ∧ c1.PageInfo = c2.PageInfo ∧
      ∃ lo hi : Nat, c1.Lists = (lists.take hi).drop lo ∧ c2.Todos = (todos.take hi).drop lo
  | (sl, .err m1), (st, .err m2) =>
    sl.pageInfo = st.pageInfo ∧
      ((m1 = "list not found" ∧ m2 = "todo not found") ∨
        (m1 = "lists is out of range" ∧ m2 = "todo is out of range"))
  | (sl, .panic), (st, .panic) => sl.pageInfo = st.pageInfo
  | _, _ => False

end Graph

/-! ## `project/graphql/graph/utils`, `project/graphql/graph` : role check of the resolvers -/

namespace GraphUtils

def Username : String := "userId"
def Role : String := "role"
def emptyRoleErrorMsg : String := "providing role is required"

/-- The text `fmt.Errorf(userDoesNotHavePermission, role, permissionLevel)` builds. -/
def userDoesNotHavePermission (role permissionLevel : String) : String :=
  "user is " ++ role ++ " and does not have " ++ permissionLevel ++ " permission"

/-- The string-valued entries of a `context.Context`, most recent first. -/
abbrev Context := List (String × String)

/-- The expression `ctx.Value(key).(string)` in its two-result form. -/
def valueAsString (ctx : Context) (key : String) : String × Bool :=
  match ctx.lookup key with
  | some v => (v, true)
  | none => ("", false)

/-- The result is the returned `error`: `none` is `nil`, `some msg` an error with that text. -/
def ValidatePermission (ctx : Context) (permissionLevel : String) : Option String :=
  let (role, ok) := valueAsString ctx Role
  if !ok || role = "" then
    some emptyRoleErrorMsg
  else if !CheckIfUserHasPermission role permissionLevel then
    some (userDoesNotHavePermission role permissionLevel)
  else
    none

end GraphUtils

namespace GraphResolver

open GraphUtils

/-- A `graphql.Resolver`: from the context to the pair `(res, err)`; `none` is `nil`. -/
abbrev Resolver (α : Type) := Context → Option α × Option String

def HasAdminPermissionDirective {α : Type} (ctx : Context) (next : Resolver α) :
    Option α × Option String :=
  match ValidatePermission ctx Admin with
  | some err => (none, some err)
  | none => next ctx

def HasWriterPermissionDirective {α : Type} (ctx : Context) (next : Resolver α) :
    Option α × Option String :=
  match ValidatePermission ctx Writer with
  | some err => (none, some err)
  | none => next ctx

def HasReaderPermissionDirective {α : Type} (ctx : Context) (next : Resolver α) :
    Option α × Option String :=
  match ValidatePermission ctx Reader with
  | some err => (none, some err)
  | none => next ctx

end GraphResolver

/-! ## `project/graphql/graph/api` : user middleware of the gateway -/

namespace GraphApi

open GraphUtils

def http_StatusOK : Nat := 200
def http_StatusBadRequest : Nat := 400
def http_StatusUnauthorized : Nat := 401
def http_StatusInternalServerError : Nat := 500

/-- The `http.ResponseWriter` of a request, as far as the middleware depends on it: the error
`w.Write` returns for a body (`none` is `nil`). -/
structure ResponseWriter where
  Write : String → Option String

/-- Effects of a gateway handler, in program order. -/
inductive Event
  /-- An entry `logrus.Error(msg)` on the standard logger. -/
  | logError (msg : String)
  /-- A call `w.Write([]byte(body))` and the error it returned. -/
  | write (body : String) (err : Option String)
  /-- A call `w.WriteHeader(code)`. -/
  | writeHeader (code : Nat)
  /-- The call `next.ServeHTTP(w, r)`; the effects of `next` follow it. -/
  | serveNext (r : Api.Request)
  deriving DecidableEq, Repr

abbrev Handler := ResponseWriter → Api.Request → List Event

def SetUserInformationToContext (next : Handler) : Handler := fun w r =>
  let username := r.headerGet Username
  let role := GetUserRole username
  if username = "" || role = Unknown then
    Event.logError "missing valuable information about the user" ::
      Event.write "missing valuable information about the user"
        (w.Write "missing valuable information about the user") ::
      (match w.Write "missing valuable information about the user" with
       | some err => [Event.logError err, Event.writeHeader http_StatusInternalServerError]
       | none => [Event.writeHeader http_StatusBadRequest])
  else
    Event.serveNext ((r.withValue Username username).withValue Role role) ::
      next w ((r.withValue Username username).withValue Role role)

/-! ### Reading a trace -/

/-- The status codes the handler asks for with `WriteHeader`, in order. -/
def requestedStatuses : List Event → List Nat
  | [] => []
  | Event.writeHeader code :: t => code :: requestedStatuses t
  | _ :: t => requestedStatuses t

/-- The status code of the response as `net/http` sends it: that of the first `WriteHeader`,
or 200 when `Write` is called before any `WriteHeader` (the first `Write` sends the header
with `http.StatusOK`; a later `WriteHeader` is ignored). -/
def effectiveStatus : List Event → Option Nat
  | [] => none
  | Event.writeHeader code :: _ => some code
  | Event.write _ _ :: _ => some http_StatusOK
  | _ :: t => effectiveStatus t

/-- The body of the response: what the successful `Write` calls wrote, in order. -/
def responseBody : List Event → String
  | [] => ""
  | Event.write body none :: t => body ++ responseBody t
  | _ :: t => responseBody t

/-- Whether a `next.ServeHTTP` call occurs in the trace. -/
def nextInvoked (t : List Event) : Bool :=
  t.any fun e => match e with
    | Event.serveNext _ => true
    | _ => false

/-- A handler that does nothing, to run the middleware on its own. -/
def idle : Handler := fun _ _ => []

end GraphApi

/-! ## `project/structures`, `project/utils` : data of the REST backend and todo statuses -/

namespace Structures

open RestUtils

/-- Values of `time.Time`, which the code compares with `==` and `!=`, that is field by
field; `loc` stands for the location pointer. -/
structure Time where
  wall : Nat
  ext : Int
  loc : Option String
  deriving DecidableEq, Repr

/-- The zero value of `time.Time` (`var defaultTime time.Time`). -/
def Time.zero : Time := { wall := 0, ext := 0, loc := none }

structure ListInput where
  Name : String
  deriving DecidableEq, Repr

structure ListUserInput where
  Username : String
  deriving DecidableEq, Repr

structure ListModel where
  Id : UUID
  Name : String
  CreationDate : Time
  Owner : String
  Users : List String
  deriving DecidableEq, Repr

structure UserModel where
  ListId : UUID
  ListName : String
  Username : String
  IsOwner : Bool
  deriving DecidableEq, Repr

structure ListEntity where
  Id : UUID
  Name : String
  CreatedAt : Time
  deriving DecidableEq, Repr

structure ListUserEntity where
  ListId : UUID
  Username : String
  IsOwner : Bool
  deriving DecidableEq, Repr

structure ListOutput where
  Id : UUID
  Name : String
  Owner : String
  deriving DecidableEq, Repr

structure ListUserOutput where
  Id : UUID
  Name : String
  Owner : String
  Users : List String
  deriving DecidableEq, Repr

structure UserOutput where
  ListId : UUID
  ListName : String
  Username : String
  IsOwner : Bool
  deriving DecidableEq, Repr

structure TodoInput where
  Name : String
  Description : String
  Deadline : Time
  Priority : String
  deriving DecidableEq, Repr

structure TodoOutput where
  Id : UUID
  ListId : UUID
  Name : String
  Description : String
  Deadline : Time
  Assignee : String
  Status : String
  Priority : String
  deriving DecidableEq, Repr

structure TodoEntity where
  Id : UUID
  ListId : UUID
  Name : String
  Description : String
  Deadline : Time
  CreationDate : Time
  Assignee : String
  Status : String
  Priority : String
  deriving DecidableEq, Repr

end Structures

namespace RestUtils

def AlreadyExistsErrorMsg : String := "error already exists"
def NotFoundErrorMsg : String := "not found"
def GetErrorMsg : String := "error getting"
def CreateErrorMsg : String := "error creating"
def DeletingErrorMsg : String := "error deleting"
def UpdateErrorMsg : String := "error updating"

def UnknownPriority : String := "Undefined"
def MediumPriority : String := "Medium"

def Undefined : String := "Undefined"
def NotAssigned : String := "Not Assigned"
def Assigned : String := "Assigned"
def InProgress : String := "In Progress"
def InReview : String := "In Review"
def Completed : String := "Completed"

def NextStatus (status : String) : String :=
  if status = NotAssigned then Assigned
  else if status = Assigned then InProgress
  else if status = InReview then Completed
  else if status = InProgress then InReview
  else if status = Completed then Completed
  else Undefined

/-- Whether `p` is a prefix of `s`, on the characters of the two strings. -/
def startsWithChars : List Char → List Char → Bool
  | _, [] => true
  | [], _ :: _ => false
  | a :: s, b :: p => a == b && startsWithChars s p

/-- Whether `p` occurs in `s`, on the characters of the two strings. -/
def containsChars : List Char → List Char → Bool
  | [], p => startsWithChars [] p
  | a :: s, p => startsWithChars (a :: s) p || containsChars s p

/-- The function `strings.Contains(s, substr)` of the Go library.  The handlers that call
`regexp.MatchString(utils.GetErrorMsg, s)` are modelled with it as well: the pattern is a
fixed text without regular-expression operators, so it compiles and matches exactly the texts
that contain it. -/
def strings_Contains (s substr : String) : Bool := containsChars s.data substr.data

end RestUtils

/-! ## `project/list` : list service and converter -/

namespace ListService

open RestUtils Structures

/-- The methods of the `RepositoryList` interface that the modelled service functions call;
an `error` result is `none` for `nil` and `some text` otherwise. -/
structure RepositoryList where
  GetUserFromListById : UUID → String → Except String UserModel
  CreateList : ListEntity → ListUserEntity → Option String
  AddUserToList : ListUserEntity → Option String
  ContainsUserInList : UUID → String → Bool

/-- A call of the repository made by the service, with what is handed over. -/
inductive RepoCall
  | createList (entityList : ListEntity) (entityUser : ListUserEntity)
  | addUserToList (entityUser : ListUserEntity)
  | getUserFromListById (listId : UUID) (username : String)
  deriving DecidableEq, Repr

def ConvertListModelToOutput (listModel : ListModel) : ListOutput :=
  { Id := listModel.Id, Name := listModel.Name, Owner := listModel.Owner }

def ConvertListModelToEntities (listModel : ListModel) : ListEntity × ListUserEntity :=
  let listEntity : ListEntity :=
    { Id := listModel.Id, Name := listModel.Name, CreatedAt := Time.zero }
  let listUserEntity : ListUserEntity :=
    { ListId := listModel.Id, Username := listModel.Owner, IsOwner := true }
  (listEntity, listUserEntity)

def ConvertUserModelToUserOutput (userModel : UserModel) : UserOutput :=
  { ListId := userModel.ListId, ListName := userModel.ListName,
    Username := userModel.Username, IsOwner := userModel.IsOwner }

/-- The model `CreateList` builds first; `newId` is the value of `uuid.New()`. -/
def CreateList.listModel (newId : UUID) (listName username : String) : ListModel :=
  { Id := newId, Name := listName, CreationDate := Time.zero, Owner := username,
    Users := [username] }

/-- The result is the repository calls made and what the function returns. -/
def CreateList (repo : RepositoryList) (newId : UUID) (listName username : String) :
    List RepoCall × Except String ListOutput :=
  let listModel := CreateList.listModel newId listName username
  let (listEntity, listUserEntity) := ConvertListModelToEntities listModel
  match repo.CreateList listEntity listUserEntity with
  | some err => ([RepoCall.createList listEntity listUserEntity], .error err)
  | none =>
    ([RepoCall.createList listEntity listUserEntity], .ok (ConvertListModelToOutput listModel))

/-- The result is the repository calls made and the returned `error`. -/
def AddUserToList (repo : RepositoryList) (listId : UUID) (username : String) :
    List RepoCall × Option String :=
  let entityUser : ListUserEntity := { Username := username, ListId := listId, IsOwner := false }
  ([RepoCall.addUserToList entityUser], repo.AddUserToList entityUser)

def GetUserFromListById (repo : RepositoryList) (listId : UUID) (username : String) :
    Except String UserOutput :=
  match repo.GetUserFromListById listId username with
  | .error err => .error err
  | .ok userModel => .ok (ConvertUserModelToUserOutput userModel)

def ContainUserInList (repo : RepositoryList) (listId : UUID) (username : String) : Bool :=
  repo.ContainsUserInList listId username

end ListService

/-! ## `project/list`, `project/todo` : the handlers behind the gate -/

namespace Handlers

open RestUtils Structures

def http_StatusOK : Nat := 200
def http_StatusCreated : Nat := 201
def http_StatusBadRequest : Nat := 400
def http_StatusNotFound : Nat := 404
def http_StatusConflict : Nat := 409
def http_StatusInternalServerError : Nat := 500

/-- What a handler passes to `utils.ResponseHandling` to be written as the body. -/
inductive Body
  | text (msg : String)
  /-- An `error` value (not its text). -/
  | error (err : String)
  | listUserOutput (v : ListUserOutput)
  | listOutput (v : ListOutput)
  | listOutputs (v : List ListOutput)
  | userOutput (v : UserOutput)
  | todoOutput (v : TodoOutput)
  | todoOutputs (v : List TodoOutput)
  deriving DecidableEq, Repr

/-- A call of the service made by a handler. -/
inductive Call
  | GetListById (listId : UUID)
  | GetAllLists
  | GetUserFromListById (listId : UUID) (username : String)
  | GetUsersFromListById (listId : UUID)
  | CreateList (listName username : String)
  | AddUserToList (listId : UUID) (username : String)
  | DeleteList (listId : UUID)
  | RemoveUserFromList (listId : UUID) (username : String)
  | UpdateList (listId : UUID) (newListName : String)
  | GetTodo (todoId listId : UUID)
  | GetAllTasks (listId : UUID)
  | CreateTodo (input : TodoInput) (listId : UUID)
  | DeleteTodo (todoId listId : UUID)
  | UpdateTodo (todoId listId : UUID) (todoUpdate : TodoInput)
  | AssignUserToTodo (todoId listId : UUID) (username : String)
  | ChangeTodoStatus (todoId listId : UUID)
  | GetTodoAssignee (todoId : UUID)
  deriving DecidableEq, Repr

/-- Effects of a business handler, in program order. -/
inductive Event
  /-- A call `w.WriteHeader(code)`. -/
  | writeHeader (code : Nat)
  /-- A call `utils.ResponseHandling(req, w, body)`, which encodes `body` and writes it. -/
  | respond (body : Body)
  /-- A log entry at level info. -/
  | info (msg : String)
  /-- A call of the service; its result is what the service of the handler gives. -/
  | service (call : Call)
  deriving DecidableEq, Repr

/-- Status code of the response: the code of the first `WriteHeader` of the trace. -/
def responseStatus : List Event → Option Nat
  | [] => none
  | Event.writeHeader code :: _ => some code
  | _ :: t => responseStatus t

/-- The bodies passed to `utils.ResponseHandling`, in order. -/
def responseBodies : List Event → List Body
  | [] => []
  | Event.respond body :: t => body :: responseBodies t
  | _ :: t => responseBodies t

/-- The service calls of the trace, in order. -/
def serviceCalls : List Event → List Call
  | [] => []
  | Event.service call :: t => call :: serviceCalls t
  | _ :: t => serviceCalls t

/-- The error policy of the handlers as the specification words it, to compare the handlers
with: `markers` lists the texts a handler recognises with the status of each, in the order
the handler tests them.  An error carrying a recognised marker is answered with the status of
the first such marker and its own text; any other error with 500 and the text `fallback`,
which does not depend on the error. -/
def errorResponse (markers : List (String × Nat)) (fallback : String) (err : String) :
    Nat × String :=
  match markers.find? (fun m => strings_Contains err m.1) with
  | some m => (m.2, err)
  | none => (500, fallback)

/-- The trace `t` answers with the status and the message of `r`: its first `WriteHeader`
carries the status and its only body is the message as a text. -/
def answersWith (t : List Event) (r : Nat × String) : Prop :=
  responseStatus t = some r.1 ∧ responseBodies t = [Body.text r.2]

end Handlers

namespace ListResolver

open RestUtils Structures Handlers

def username : String := "userId"
def listId : String := "listId"
def removeUserErrorMsg : String := "error removing"
def addUserErrorMsg : String := "error adding"

/-- The `ServiceList` interface; a pair `(value, error)` is `Except`, a lone `error` is
`none` for `nil` and `some text` otherwise. -/
structure ServiceList where
  GetListById : UUID → Except String ListUserOutput
  GetAllLists : List ListOutput
  GetUserFromListById : UUID → String → Except String UserOutput
  GetUsersFromListById : UUID → Except String ListUserOutput
  CreateList : String → String → Except String ListOutput
  AddUserToList : UUID → String → Option String
  DeleteList : UUID → Except String ListUserOutput
  RemoveUserFromList : UUID → String → Except String UserOutput
  UpdateList : UUID → String → Except String ListOutput
  CheckIfListExistsInList : UUID → Bool
  ContainUserInList : UUID → String → Bool

def getListIdInput (lib : UuidLib) (req : Api.Request) : Except String UUID :=
  match GetID lib req.vars listId with
  | .error err => .error err
  | .ok listId => .ok listId

def GetListById (lib : UuidLib) (service : ServiceList) (req : Api.Request) : List Event :=
  match getListIdInput lib req with
  | .error err => [Event.writeHeader http_StatusBadRequest, Event.respond (Body.text err)]
  | .ok listIdInput =>
    Event.service (Call.GetListById listIdInput) ::
      match service.GetListById listIdInput with
      | .error err =>
        if strings_Contains err GetErrorMsg then
          [Event.writeHeader http_StatusNotFound, Event.respond (Body.text err)]
        else
          [Event.writeHeader http_StatusInternalServerError,
           Event.respond (Body.text ("error getting list with id: " ++ lib.String listIdInput))]
      | .ok list =>
        [Event.info ("success getting " ++ list.Name ++ " list"),
         Event.writeHeader http_StatusOK, Event.respond (Body.listUserOutput list)]

def GetAllLists (service : ServiceList) (_req : Api.Request) : List Event :=
  [Event.service Call.GetAllLists, Event.writeHeader http_StatusOK,
   Event.respond (Body.listOutputs service.GetAllLists)]

/-- The argument `input` is what decoding the request body gives, `none` for an error. -/
def CreateList (lib : UuidLib) (service : ServiceList) (req : Api.Request)
    (input : Option ListInput) : List Event :=
  match input with
  | none =>
    [Event.writeHeader http_StatusBadRequest, Event.respond (Body.text "error decoding list input")]
  | some input =>
    let owner := req.headerGet username
    Event.service (Call.CreateList input.Name owner) ::
      match service.CreateList input.Name owner with
      | .error err =>
        if strings_Contains err AlreadyExistsErrorMsg then
          [Event.writeHeader http_StatusConflict, Event.respond (Body.text err)]
        else if strings_Contains err CreateErrorMsg then
          [Event.writeHeader http_StatusBadRequest, Event.respond (Body.text err)]
        else if strings_Contains err NotFoundErrorMsg then
          [Event.writeHeader http_StatusNotFound, Event.respond (Body.text err)]
        else
          [Event.writeHeader http_StatusInternalServerError,
           Event.respond (Body.text ("failed to create list with name: " ++ input.Name))]
      | .ok newList =>
        [Event.info ("success creating list with id: " ++ lib.String newList.Id),
         Event.writeHeader http_StatusCreated, Event.respond (Body.listOutput newList)]

def DeleteList (lib : UuidLib) (service : ServiceList) (req : Api.Request) : List Event :=
  match getListIdInput lib req with
  | .error err =>
    [Event.writeHeader http_StatusInternalServerError, Event.respond (Body.text err)]
  | .ok listIdInput =>
    Event.service (Call.DeleteList listIdInput) ::
      match service.DeleteList listIdInput with
      | .error err =>
        if strings_Contains err NotFoundErrorMsg then
          [Event.writeHeader http_StatusNotFound, Event.respond (Body.text err)]
        else if strings_Contains err DeletingErrorMsg then
          [Event.writeHeader http_StatusBadRequest, Event.respond (Body.text err)]
        else
          [Event.writeHeader http_StatusInternalServerError,
           Event.respond (Body.text ("failed to delete list with id: " ++ lib.String listIdInput))]
      | .ok deletedList =>
        [Event.writeHeader http_StatusOK,
         Event.info ("success deleting " ++ lib.String listIdInput ++ " list"),
         Event.respond (Body.listUserOutput deletedList)]

/-- The argument `newVal` is what decoding the request body gives, `none` for an error. -/
def UpdateList (lib : UuidLib) (service : ServiceList) (req : Api.Request)
    (newVal : Option ListInput) : List Event :=
  match getListIdInput lib req with
  | .error err =>
    [Event.writeHeader http_StatusInternalServerError, Event.respond (Body.text err)]
  | .ok listIdInput =>
    match newVal with
    | none =>
      [Event.writeHeader http_StatusBadRequest,
       Event.respond (Body.text
         ("failed to decode new data for list with id: " ++ lib.String listIdInput))]
    | some newVal =>
      Event.service (Call.UpdateList listIdInput newVal.Name) ::
        match service.UpdateList listIdInput newVal.Name with
        | .error err =>
          if strings_Contains err NotFoundErrorMsg then
            [Event.writeHeader http_StatusNotFound, Event.respond (Body.text err)]
          else if strings_Contains err AlreadyExistsErrorMsg then
            [Event.writeHeader http_StatusConflict, Event.respond (Body.text err)]
          else if strings_Contains err UpdateErrorMsg then
            [Event.writeHeader http_StatusBadRequest, Event.respond (Body.text err)]
          else
            [Event.writeHeader http_StatusInternalServerError,
             Event.respond (Body.text
               ("failed to decode new data for list with id: " ++ lib.String listIdInput))]
        | .ok updatedList =>
          [Event.writeHeader http_StatusOK,
           Event.info ("success updating " ++ lib.String listIdInput ++ " list"),
           Event.respond (Body.listOutput updatedList)]

/-- The argument `userInput` is what decoding the request body gives, `none` for an error. -/
def AddUserToList (lib : UuidLib) (service : ServiceList) (req : Api.Request)
    (userInput : Option ListUserInput) : List Event :=
  match getListIdInput lib req with
  | .error err => [Event.writeHeader http_StatusBadRequest, Event.respond (Body.error err)]
  | .ok listIdInput =>
    match userInput with
    | none =>
      [Event.writeHeader http_StatusBadRequest, Event.respond (Body.text "failed to decode user")]
    | some userInput =>
      if userInput.Username = "" then
        [Event.writeHeader http_StatusBadRequest,
         Event.respond (Body.text "user's username is required")]
      else
        Event.service (Call.AddUserToList listIdInput userInput.Username) ::
          match service.AddUserToList listIdInput userInput.Username with
          | some err =>
            if strings_Contains err AlreadyExistsErrorMsg then
              [Event.writeHeader http_StatusConflict, Event.respond (Body.text err)]
            else if strings_Contains err NotFoundErrorMsg then
              [Event.writeHeader http_StatusNotFound, Event.respond (Body.text err)]
            else if strings_Contains err addUserErrorMsg then
              [Event.writeHeader http_StatusBadRequest, Event.respond (Body.text err)]
            else
              [Event.writeHeader http_StatusInternalServerError,
               Event.respond (Body.text
                 ("failed to add user " ++ userInput.Username ++ " to list with id: "
                   ++ lib.String listIdInput))]
          | none =>
            [Event.writeHeader http_StatusOK,
             Event.respond (Body.text
               ("success adding " ++ userInput.Username ++ " user to list with id: "
                 ++ lib.String listIdInput))]

def RemoveUserFromList (lib : UuidLib) (service : ServiceList) (req : Api.Request) :
    List Event :=
  match getListIdInput lib req with
  | .error err => [Event.writeHeader http_StatusBadRequest, Event.respond (Body.text err)]
  | .ok listIdInput =>
    let username := mapIndex req.vars username
    Event.service (Call.RemoveUserFromList listIdInput username) ::
      match service.RemoveUserFromList listIdInput username with
      | .error err =>
        if strings_Contains err NotFoundErrorMsg then
          [Event.writeHeader http_StatusNotFound, Event.respond (Body.text err)]
        else if strings_Contains err removeUserErrorMsg then
          [Event.writeHeader http_StatusBadRequest, Event.respond (Body.text err)]
        else
          [Event.writeHeader http_StatusInternalServerError,
           Event.respond (Body.text
             ("failed to remove user " ++ username ++ " from list with id: "
               ++ lib.String listIdInput))]
      | .ok removedUser =>
        [Event.writeHeader http_StatusOK,
         Event.info ("success removing " ++ username ++ " user from list with id: "
           ++ lib.String listIdInput),
         Event.respond (Body.userOutput removedUser)]

def GetUserFromListById (lib : UuidLib) (service : ServiceList) (req : Api.Request) :
    List Event :=
  match getListIdInput lib req with
  | .error err => [Event.writeHeader http_StatusBadRequest, Event.respond (Body.text err)]
  | .ok listIdInput =>
    if mapIndex req.vars username = "" then
      [Event.writeHeader http_StatusBadRequest,
       Event.respond (Body.text "user's username is required")]
    else
      let username := mapIndex req.vars username
      Event.service (Call.GetUserFromListById listIdInput username) ::
        match service.GetUserFromListById listIdInput username with
        | .error err =>
          if strings_Contains err GetErrorMsg then
            [Event.writeHeader http_StatusNotFound, Event.respond (Body.text err)]
          else
            [Event.writeHeader http_StatusInternalServerError,
             Event.respond (Body.text
               ("failed to get user " ++ username ++ " from list with id: "
                 ++ lib.String listIdInput))]
        | .ok user =>
          [Event.writeHeader http_StatusOK,
           Event.info ("success getting " ++ username ++ " user from list with id: "
             ++ lib.String listIdInput),
           Event.respond (Body.userOutput user)]

def GetUsersFromListById (lib : UuidLib) (service : ServiceList) (req : Api.Request) :
    List Event :=
  match getListIdInput lib req with
  | .error err => [Event.writeHeader http_StatusBadRequest, Event.respond (Body.text err)]
  | .ok listIdInput =>
    Event.service (Call.GetUsersFromListById listIdInput) ::
      match service.GetUsersFromListById listIdInput with
      | .error err =>
        if strings_Contains err GetErrorMsg then
          [Event.writeHeader http_StatusNotFound, Event.respond (Body.text err)]
        else
          [Event.writeHeader http_StatusInternalServerError,
           Event.respond (Body.text
             ("failed to get users from list with id: " ++ lib.String listIdInput))]
      | .ok userOutputs =>
        [Event.writeHeader http_StatusOK,
         Event.info ("success getting users from " ++ lib.String listIdInput),
         Event.respond (Body.listUserOutput userOutputs)]

def IsOwnerUserOwnerToListById (service : ServiceList) (listId : UUID) (username : String) :
    Bool :=
  match service.GetUserFromListById listId username with
  | .error _ => false
  | .ok entity => entity.IsOwner

def IsUserPartOfList (service : ServiceList) (listId : UUID) (username : String) : Bool :=
  service.ContainUserInList listId username

end ListResolver

namespace TodoResolver

open RestUtils Structures Handlers

def listId : String := "listId"
def todoId : String := "todoId"
def username : String := "userId"
def assigningErrorMsg : String := "error assigning"
def changingStatusErrorMsg : String := "error changing status"

/-- The `ServiceTodo` interface; a pair `(value, error)` is `Except`, a lone `error` is
`none` for `nil` and `some text` otherwise. -/
structure ServiceTodo where
  GetTodo : UUID → UUID → Except String TodoOutput
  GetAllTasks : UUID → List TodoOutput
  CreateTodo : TodoInput → UUID → Except String TodoOutput
  DeleteTodo : UUID → UUID → Except String TodoOutput
  UpdateTodo : UUID → UUID → TodoInput → Except String TodoOutput
  AssignUserToTodo : UUID → UUID → String → Option String
  ChangeTodoStatus : UUID → UUID → Option String
  CheckIfListContainsTodo : UUID → UUID → Bool
  GetTodoAssignee : UUID → String

def GetTodo (lib : UuidLib) (service : ServiceTodo) (req : Api.Request) : List Event :=
  match GetID lib req.vars todoId with
  | .error err => [Event.writeHeader http_StatusBadRequest, Event.respond (Body.error err)]
  | .ok todoId =>
    match GetID lib req.vars listId with
    | .error err => [Event.writeHeader http_StatusBadRequest, Event.respond (Body.error err)]
    | .ok listId =>
      Event.service (Call.GetTodo todoId listId) ::
        match service.GetTodo todoId listId with
        | .error err =>
          if strings_Contains err GetErrorMsg then
            [Event.writeHeader http_StatusNotFound, Event.respond (Body.text err)]
          else
            [Event.writeHeader http_StatusInternalServerError,
             Event.respond (Body.text
               ("failed to get task with id: " ++ lib.String todoId ++ " from list with id: "
                 ++ lib.String listId))]
        | .ok output =>
          [Event.writeHeader http_StatusOK,
           Event.info ("Success getting todo with id: " ++ lib.String todoId),
           Event.respond (Body.todoOutput output)]

def GetAllTasks (lib : UuidLib) (service : ServiceTodo) (req : Api.Request) : List Event :=
  match GetID lib req.vars listId with
  | .error err => [Event.writeHeader http_StatusBadRequest, Event.respond (Body.error err)]
  | .ok listId =>
    [Event.service (Call.GetAllTasks listId), Event.writeHeader http_StatusOK,
     Event.info ("success getting all tasks form list with id: " ++ lib.String listId),
     Event.respond (Body.todoOutputs (service.GetAllTasks listId))]

def validateTodo (input : TodoInput) : Bool :=
  if input.Name = "" || input.Description = "" ||
      input.Deadline = Time.zero || input.Priority = UnknownPriority then
    false
  else
    true

/-- The argument `input` is what decoding the request body gives, `none` for an error. -/
def CreateTodo (lib : UuidLib) (service : ServiceTodo) (req : Api.Request)
    (input : Option TodoInput) : List Event :=
  match input with
  | none =>
    [Event.writeHeader http_StatusInternalServerError,
     Event.respond (Body.text "error decoding body")]
  | some input =>
    if !validateTodo input then
      [Event.writeHeader http_StatusBadRequest,
       Event.respond (Body.text "missing required field(s)")]
    else
      match GetID lib req.vars listId with
      | .error err => [Event.writeHeader http_StatusBadRequest, Event.respond (Body.error err)]
      | .ok listId =>
        Event.service (Call.CreateTodo input listId) ::
          match service.CreateTodo input listId with
          | .error err =>
            if strings_Contains err AlreadyExistsErrorMsg then
              [Event.writeHeader http_StatusConflict, Event.respond (Body.text err)]
            else if strings_Contains err NotFoundErrorMsg then
              [Event.writeHeader http_StatusNotFound, Event.respond (Body.text err)]
            else if strings_Contains err CreateErrorMsg then
              [Event.writeHeader http_StatusBadRequest, Event.respond (Body.text err)]
            else
              [Event.writeHeader http_StatusInternalServerError,
               Event.respond (Body.text
                 ("failed to creat todo with name " ++ input.Name ++ " in list with id: "
                   ++ lib.String listId))]
          | .ok newTodo =>
            [Event.writeHeader http_StatusCreated,
             Event.info ("success creating todo with id: " ++ lib.String newTodo.Id),
             Event.respond (Body.todoOutput newTodo)]

def DeleteTodo (lib : UuidLib) (service : ServiceTodo) (req : Api.Request) : List Event :=
  match GetID lib req.vars listId with
  | .error err => [Event.writeHeader http_StatusBadRequest, Event.respond (Body.error err)]
  | .ok listId =>
    match GetID lib req.vars todoId with
    | .error err => [Event.writeHeader http_StatusBadRequest, Event.respond (Body.error err)]
    | .ok todoId =>
      Event.service (Call.DeleteTodo todoId listId) ::
        match service.DeleteTodo todoId listId with
        | .error err =>
          if strings_Contains err NotFoundErrorMsg then
            [Event.writeHeader http_StatusNotFound, Event.respond (Body.text err)]
          else if strings_Contains err DeletingErrorMsg then
            [Event.writeHeader http_StatusBadRequest, Event.respond (Body.text err)]
          else
            [Event.writeHeader http_StatusInternalServerError,
             Event.respond (Body.text ("failed to delete todo with id: " ++ lib.String todoId))]
        | .ok deletedTodo =>
          [Event.writeHeader http_StatusOK,
           Event.info ("success deleting todo with id: " ++ lib.String todoId),
           Event.respond (Body.todoOutput deletedTodo)]

/-- The argument `input` is what decoding the request body gives, `none` for an error. -/
def UpdateTodo (lib : UuidLib) (service : ServiceTodo) (req : Api.Request)
    (input : Option TodoInput) : List Event :=
  match GetID lib req.vars listId with
  | .error err => [Event.writeHeader http_StatusBadRequest, Event.respond (Body.error err)]
  | .ok listId =>
    match GetID lib req.vars todoId with
    | .error err => [Event.writeHeader http_StatusBadRequest, Event.respond (Body.error err)]
    | .ok todoId =>
      match input with
      | none =>
        [Event.writeHeader http_StatusInternalServerError,
         Event.respond (Body.text
           ("error decoding todo body with id: " ++ lib.String todoId))]
      | some input =>
        Event.service (Call.UpdateTodo todoId listId input) ::
          match service.UpdateTodo todoId listId input with
          | .error err =>
            if strings_Contains err AlreadyExistsErrorMsg then
              [Event.writeHeader http_StatusConflict, Event.respond (Body.text err)]
            else if strings_Contains err NotFoundErrorMsg then
              [Event.writeHeader http_StatusNotFound, Event.respond (Body.text err)]
            else if strings_Contains err UpdateErrorMsg then
              [Event.writeHeader http_StatusBadRequest, Event.respond (Body.text err)]
            else
              [Event.writeHeader http_StatusInternalServerError,
               Event.respond (Body.text
                 ("failed to update todo with id: " ++ lib.String todoId))]
          | .ok updatedTodo =>
            [Event.writeHeader http_StatusOK,
             Event.info ("success updating todo with id: " ++ lib.String updatedTodo.Id),
             Event.respond (Body.todoOutput updatedTodo)]

def AssignUserToTodo (lib : UuidLib) (service : ServiceTodo) (req : Api.Request) :
    List Event :=
  match GetID lib req.vars todoId with
  | .error err => [Event.writeHeader http_StatusBadRequest, Event.respond (Body.error err)]
  | .ok todoId =>
    match GetID lib req.vars listId with
    | .error err => [Event.writeHeader http_StatusBadRequest, Event.respond (Body.error err)]
    | .ok listId =>
      let username := req.headerGet username
      if username = "" then
        [Event.writeHeader http_StatusBadRequest,
         Event.respond (Body.text "username is required")]
      else
        Event.service (Call.AssignUserToTodo todoId listId username) ::
          match service.AssignUserToTodo todoId listId username with
          | some err =>
            if strings_Contains err NotFoundErrorMsg then
              [Event.writeHeader http_StatusNotFound, Event.respond (Body.text err)]
            else if strings_Contains err assigningErrorMsg then
              [Event.writeHeader http_StatusBadRequest, Event.respond (Body.text err)]
            else
              [Event.writeHeader http_StatusInternalServerError,
               Event.respond (Body.text
                 ("error assigning user(" ++ username ++ ") to task with id: "
                   ++ lib.String todoId))]
          | none =>
            [Event.writeHeader http_StatusOK,
             Event.respond (Body.text
               ("success assigning " ++ username ++ " to todo with id: "
                 ++ lib.String todoId))]

/-- The end of `ChangeTodoStatus`, from the call of the service on. -/
def ChangeTodoStatus.change (lib : UuidLib) (service : ServiceTodo) (todoId listId : UUID) :
    List Event :=
  Event.service (Call.ChangeTodoStatus todoId listId) ::
    match service.ChangeTodoStatus todoId listId with
    | some err =>
      if strings_Contains err NotFoundErrorMsg then
        [Event.writeHeader http_StatusNotFound, Event.respond (Body.text err)]
      else if strings_Contains err changingStatusErrorMsg then
        [Event.writeHeader http_StatusBadRequest, Event.respond (Body.text err)]
      else
        [Event.writeHeader http_StatusInternalServerError,
         Event.respond (Body.text
           ("error changing task status with id: " ++ lib.String todoId))]
    | none =>
      [Event.writeHeader http_StatusOK,
       Event.respond (Body.text
         ("status successfuly changed to todo with id: " ++ lib.String todoId))]

def ChangeTodoStatus (lib : UuidLib) (service : ServiceTodo) (req : Api.Request) :
    List Event :=
  match GetID lib req.vars todoId with
  | .error err => [Event.writeHeader http_StatusBadRequest, Event.respond (Body.error err)]
  | .ok todoId =>
    match GetID lib req.vars listId with
    | .error err => [Event.writeHeader http_StatusBadRequest, Event.respond (Body.error err)]
    | .ok listId =>
      let user := req.headerGet username
      if GetUsersRights user != RoleAt Admin then
        let todoAssignee := service.GetTodoAssignee todoId
        Event.service (Call.GetTodoAssignee todoId) ::
          (if todoAssignee != user then
            [Event.writeHeader http_StatusBadRequest,
             Event.respond (Body.text
               ("task " ++ lib.String todoId ++ " is not assigned to " ++ user))]
          else
            ChangeTodoStatus.change lib service todoId listId)
      else
        ChangeTodoStatus.change lib service todoId listId

end TodoResolver

/-! ## `project/todo` : merge of a todo update in the repository -/

namespace TodoRepository

open RestUtils Structures

/-- The method `DBRepositoryTodo.validate`; the result is `*originalTodo` after the call. -/
def validate (originalTodo : TodoEntity) (updateTodo : TodoEntity) : TodoEntity :=
  let originalTodo :=
    if updateTodo.Name != "" then { originalTodo with Name := updateTodo.Name }
    else originalTodo
  let originalTodo :=
    if updateTodo.Description != "" then
      { originalTodo with Description := updateTodo.Description }
    else originalTodo
  let originalTodo :=
    if updateTodo.Deadline != Time.zero then
      { originalTodo with Deadline := updateTodo.Deadline }
    else originalTodo
  let originalTodo :=
    if updateTodo.Priority != Undefined && updateTodo.Priority != "" then
      { originalTodo with Priority := updateTodo.Priority }
    else originalTodo
  originalTodo

end TodoRepository

/-! ## Sample data -/

namespace Sample

open RestUtils Api Graph

/-- The text of the UUID whose first byte is 1 and whose other bytes are 0 (the tests call it
`utils.TestListId`). -/
def lid : String := "01000000-0000-0000-0000-000000000000"

def uid : UUID := ⟨[1, 0, 0, 0, 0, 0, 0, 0, 0, 0, 0, 0, 0, 0, 0, 0]⟩

/-- The UUID library restricted to the one ID `lid`; other texts used here are no UUIDs. -/
def lib : UuidLib :=
  { Parse := fun s => if s = lid then some uid else none, String := fun _ => lid }

/-- A resolver for which Ivan owns every list and Ivan and Miro are its members. -/
def resolver : ResolverList :=
  { IsOwnerUserOwnerToListById := fun _ u => u == "Ivan"
    IsUserPartOfList := fun _ u => u == "Ivan" || u == "Miro" }

def amw : AuthenticationMiddleware := { lib := lib, resolver := resolver }

/-- A request of `user` with the route variable `listId` set to `lid`. -/
def request (method user lid : String) : Request :=
  { method := method, path := basePath ++ "/list/" ++ lid, header := [("userId", user)],
    vars := [("listId", lid)], ctx := [] }

/-- The owner-gated route `PUT /todo/api/list/{listId}`. -/
def updateList : Route :=
  ⟨Subrouter.authenticationOwnerSubrouter, "PUT", basePath ++ "/list/{listId}",
    "listR.UpdateList"⟩

def listA : ListOutput := { ID := "a", Name := "A" }
def listB : ListOutput := { ID := "b", Name := "B" }
def listC : ListOutput := { ID := "c", Name := "C" }

def todo (id : String) : TodoOutput :=
  { ID := id, ListID := lid, Name := id, Description := "", Assignee := "",
    Status := "Not Assigned", Priority := "Low" }

/-- A response writer whose `Write` always succeeds. -/
def writer : GraphApi.ResponseWriter := { Write := fun _ => none }

/-- A resolver that answers with its context and no error. -/
def echo : GraphResolver.Resolver GraphUtils.Context := fun ctx => (some ctx, none)

/-- The text of the UUID whose first byte is 2 and whose other bytes are 0 (the tests call it
`utils.TestTodoId`). -/
def tid : String := "02000000-0000-0000-0000-000000000000"

def tuid : UUID := ⟨[2, 0, 0, 0, 0, 0, 0, 0, 0, 0, 0, 0, 0, 0, 0, 0]⟩

/-- The UUID library restricted to the two IDs `lid` and `tid`. -/
def lib2 : UuidLib :=
  { Parse := fun s => if s = lid then some uid else if s = tid then some tuid else none,
    String := fun id => if id = uid then lid else tid }

/-- A request of `user` on the todo `tid` of the list `lid`; the header `userId` is absent
when `user` is `none`. -/
def todoRequest (method : String) (user : Option String) : Request :=
  { method := method, path := basePath ++ "/list/" ++ lid ++ "/todo/" ++ tid,
    header := match user with
      | some u => [("userId", u)]
      | none => [],
    vars := [("listId", lid), ("todoId", tid)], ctx := [] }

/-- The instant `2025-03-15T14:30:00Z` (seconds since year 1 in `ext`). -/
def deadline : Structures.Time := { wall := 0, ext := 63877645800, loc := none }

def todoOutput (input : Structures.TodoInput) (listId : UUID) : Structures.TodoOutput :=
  { Id := tuid, ListId := listId, Name := input.Name, Description := input.Description,
    Deadline := input.Deadline, Assignee := "", Status := "Not Assigned",
    Priority := input.Priority }

/-- A todo service whose every todo has the assignee `assignee` (`""` for none) and whose
operations succeed. -/
def todoService (assignee : String) : TodoResolver.ServiceTodo :=
  { GetTodo := fun _ listId => .ok (todoOutput ⟨"t", "d", deadline, "Medium"⟩ listId)
    GetAllTasks := fun _ => []
    CreateTodo := fun input listId => .ok (todoOutput input listId)
    DeleteTodo := fun _ listId => .ok (todoOutput ⟨"t", "d", deadline, "Medium"⟩ listId)
    UpdateTodo := fun _ listId input => .ok (todoOutput input listId)
    AssignUserToTodo := fun _ _ _ => none
    ChangeTodoStatus := fun _ _ => none
    CheckIfListContainsTodo := fun _ _ => true
    GetTodoAssignee := fun _ => assignee }

/-- A todo input without priority, as decoding a body without the field `priority` gives. -/
def inputWithoutPriority : Structures.TodoInput :=
  { Name := "TestTodo", Description := "TestDesc", Deadline := deadline, Priority := "" }

/-- A list service whose every operation fails with the error `err`. -/
def failingListService (err : String) : ListResolver.ServiceList :=
  { GetListById := fun _ => .error err
    GetAllLists := []
    GetUserFromListById := fun _ _ => .error err
    GetUsersFromListById := fun _ => .error err
    CreateList := fun _ _ => .error err
    AddUserToList := fun _ _ => some err
    DeleteList := fun _ => .error err
    RemoveUserFromList := fun _ _ => .error err
    UpdateList := fun _ _ => .error err
    CheckIfListExistsInList := fun _ => false
    ContainUserInList := fun _ _ => false }

/-- A list repository whose lookups fail and whose writes succeed. -/
def listRepository : ListService.RepositoryList :=
  { GetUserFromListById := fun _ _ => .error "error getting user of list"
    CreateList := fun _ _ => none
    AddUserToList := fun _ => none
    ContainsUserInList := fun _ _ => false }

/-- A stored todo. -/
def storedTodo : Structures.TodoEntity :=
  { Id := tuid, ListId := uid, Name := "old", Description := "old text", Deadline := deadline,
    CreationDate := deadline, Assignee := "Ivan", Status := "Assigned", Priority := "Low" }

/-- An update that sets the name only. -/
def renameTodo : Structures.TodoEntity :=
  { Id := tuid, ListId := uid, Name := "new", Description := "",
    Deadline := Structures.Time.zero, CreationDate := Structures.Time.zero, Assignee := "",
    Status := "", Priority := "" }

end Sample

end TodoApp

/-! # Properties -/

namespace TodoApp

open RestUtils Api Graph

/-! ## Role tables -/

theorem GetUsersRights_values (name : String) :
    GetUsersRights name = -1 ∨ GetUsersRights name = 1 ∨ GetUsersRights name = 2 ∨
      GetUsersRights name = 4 := by
  by_cases h1 : name = "Niki"
  · subst h1; right; right; right; decide
  by_cases h2 : name = "Ivan"
  · subst h2; right; right; left; decide
  by_cases h3 : name = "Miro"
  · subst h3; right; left; decide
  by_cases h4 : name = "Yosif"
  · subst h4; right; right; left; decide
  left
  have e1 : (name == "Niki") = false := by simpa using h1
  have e2 : (name == "Ivan") = false := by simpa using h2
  have e3 : (name == "Miro") = false := by simpa using h3
  have e4 : (name == "Yosif") = false := by simpa using h4
  simp only [GetUsersRights, users, List.lookup, e1, e2, e3, e4]

theorem GetUsersRights_unlisted (name : String) (h : users.lookup name = none) :
    GetUsersRights name = -1 := by
  simp [GetUsersRights, h]

theorem RoleAt_Reader : RoleAt Reader = 1 := by decide

theorem RoleAt_Writer : RoleAt Writer = 2 := by decide

theorem RoleAt_Admin : RoleAt Admin = 4 := by decide

/-- Claim C1: on the five roles `CheckIfUserHasPermission` is the comparison of ranks, with
the rank table unknown=-1, reader=1, writer=2, owner=3, admin=4 (which is the table
`RoleType`); unknown satisfies no requirement of reader or above and admin satisfies every
requirement. -/
theorem CheckIfUserHasPermission_iff_rank :
    (∀ r : RoleName, GraphUtils.RoleType.lookup r.toString = some r.rank) ∧
    (∀ r1 r2 : RoleName,
      GraphUtils.CheckIfUserHasPermission r1.toString r2.toString = true ↔
        r1.rank ≥ r2.rank) ∧
    (∀ r2 : RoleName, r2 ≠ RoleName.unknown →
      GraphUtils.CheckIfUserHasPermission RoleName.unknown.toString r2.toString = false) ∧
    (∀ r2 : RoleName,
      GraphUtils.CheckIfUserHasPermission RoleName.admin.toString r2.toString = true) := by
  refine ⟨?_, ?_, ?_, ?_⟩
  · intro r; cases r <;> decide
  · intro r1 r2; cases r1 <;> cases r2 <;> decide
  · intro r2 h; cases r2 <;> first | exact absurd rfl h | decide
  · intro r2; cases r2 <;> decide

/-- Claim C1 at the roles unknown and reader: the requirement is not met. -/
theorem CheckIfUserHasPermission_iff_rank_witness :
    RoleName.reader ≠ RoleName.unknown ∧
    GraphUtils.CheckIfUserHasPermission "unknown" "reader" = false :=
  ⟨by decide, CheckIfUserHasPermission_iff_rank.2.2.1 RoleName.reader (by decide)⟩

/-! ## Permission middleware -/

/-- Claim C2: `UserExistenceAuthentication` answers 401 without calling the next handler when
the user name of the header has a rank below reader, which is the case for every user name
without a directory entry and for the empty user name; for every other user name it calls the
next handler on the same request and does nothing else. -/
theorem UserExistenceAuthentication_gate (amw : AuthenticationMiddleware) (next : Handler)
    (r : Request) :
    (GetUsersRights (r.headerGet username) < RoleName.reader.rank →
      responseStatus (amw.UserExistenceAuthentication next r) = some 401 ∧
      nextInvoked (amw.UserExistenceAuthentication next r) = false) ∧
    (RoleName.reader.rank ≤ GetUsersRights (r.headerGet username) →
      amw.UserExistenceAuthentication next r = Event.serveNext r :: next r) ∧
    (∀ name : String, users.lookup name = none →
      GetUsersRights name < RoleName.reader.rank) ∧
    GetUsersRights "" < RoleName.reader.rank := by
  refine ⟨?_, ?_, ?_, by decide⟩
  · intro h
    simp only [RoleName.rank] at h
    simp [AuthenticationMiddleware.UserExistenceAuthentication, RoleAt_Reader, h,
      responseStatus, nextInvoked, http_StatusUnauthorized]
  · intro h
    simp only [RoleName.rank] at h
    simp [AuthenticationMiddleware.UserExistenceAuthentication, RoleAt_Reader, not_lt.mpr h]
  · intro name h
    rw [GetUsersRights_unlisted name h]; decide

/-- Claim C2 at a request of the unlisted user `TestUser`: status 401, next not called. -/
theorem UserExistenceAuthentication_gate_witness :
    GetUsersRights ((Sample.request "GET" "TestUser" Sample.lid).headerGet username)
      < RoleName.reader.rank ∧
    responseStatus (Sample.amw.UserExistenceAuthentication idle
      (Sample.request "GET" "TestUser" Sample.lid)) = some 401 ∧
    nextInvoked (Sample.amw.UserExistenceAuthentication idle
      (Sample.request "GET" "TestUser" Sample.lid)) = false :=
  ⟨by decide,
   (UserExistenceAuthentication_gate Sample.amw idle
      (Sample.request "GET" "TestUser" Sample.lid)).1 (by decide)⟩

/-- Claim C3: `CheckForWriterPermissions` calls the next handler exactly when the rank of the
principal is at least writer, `CheckForAdminPermissions` exactly when it is at least admin;
otherwise the status is 403 and the next handler is not called. -/
theorem writer_and_admin_permission_gate (amw : AuthenticationMiddleware) (next : Handler)
    (r : Request) :
    (RoleName.writer.rank ≤ GetUsersRights (r.headerGet username) →
      amw.CheckForWriterPermissions next r =
        Event.serveNext (r.withValue listId (mapIndex r.vars listId)) ::
          next (r.withValue listId (mapIndex r.vars listId))) ∧
    (¬ RoleName.writer.rank ≤ GetUsersRights (r.headerGet username) →
      responseStatus (amw.CheckForWriterPermissions next r) = some 403 ∧
      nextInvoked (amw.CheckForWriterPermissions next r) = false) ∧
    (RoleName.admin.rank ≤ GetUsersRights (r.headerGet username) →
      amw.CheckForAdminPermissions next r = Event.serveNext r :: next r) ∧
    (¬ RoleName.admin.rank ≤ GetUsersRights (r.headerGet username) →
      responseStatus (amw.CheckForAdminPermissions next r) = some 403 ∧
      nextInvoked (amw.CheckForAdminPermissions next r) = false) := by
  have hv := GetUsersRights_values (r.headerGet username)
  refine ⟨?_, ?_, ?_, ?_⟩
  · intro h
    simp only [RoleName.rank] at h
    simp [AuthenticationMiddleware.CheckForWriterPermissions,
      AuthenticationMiddleware.getRole, RoleAt_Writer, not_lt.mpr h]
  · intro h
    simp only [RoleName.rank, not_le] at h
    simp [AuthenticationMiddleware.CheckForWriterPermissions,
      AuthenticationMiddleware.getRole, RoleAt_Writer, h, responseStatus, nextInvoked,
      http_StatusForbidden]
  · intro h
    simp only [RoleName.rank] at h
    have h4 : GetUsersRights (r.headerGet username) = 4 := by omega
    simp [AuthenticationMiddleware.CheckForAdminPermissions, RoleAt_Admin, h4]
  · intro h
    simp only [RoleName.rank, not_le] at h
    have h4 : GetUsersRights (r.headerGet username) ≠ 4 := by omega
    simp [AuthenticationMiddleware.CheckForAdminPermissions, RoleAt_Admin, h4,
      responseStatus, nextInvoked, http_StatusForbidden]

/-- Claim C3 at a request of the reader Miro on a writer-gated route: status 403. -/
theorem writer_and_admin_permission_gate_witness :
    ¬ RoleName.writer.rank ≤ GetUsersRights ((Sample.request "POST" "Miro" Sample.lid).headerGet
      username) ∧
    responseStatus (Sample.amw.CheckForWriterPermissions idle
      (Sample.request "POST" "Miro" Sample.lid)) = some 403 ∧
    nextInvoked (Sample.amw.CheckForWriterPermissions idle
      (Sample.request "POST" "Miro" Sample.lid)) = false :=
  ⟨by decide,
   (writer_and_admin_permission_gate Sample.amw idle
      (Sample.request "POST" "Miro" Sample.lid)).2.1 (by decide)⟩

/-- Claim C4: for a valid list ID and a principal who is not admin, `CheckForReaderPermissions`
and `CheckForUserExistenceInList` call the next handler exactly when the resolver reports the
principal as a member of the list, and `CheckForOwnerPermissions` exactly when it reports the
principal as the owner; otherwise the status is 403 and the next handler is not called. -/
theorem membership_and_ownership_gate (amw : AuthenticationMiddleware) (next : Handler)
    (r : Request) (id : UUID)
    (hid : ValidateStringID amw.lib (mapIndex r.vars listId) = .ok id)
    (hrole : GetUsersRights (r.headerGet username) ≠ RoleName.admin.rank) :
    (amw.resolver.IsUserPartOfList id (r.headerGet username) = true →
      amw.CheckForReaderPermissions next r =
        Event.isUserPartOfList id (r.headerGet username) :: Event.serveNext r :: next r ∧
      amw.CheckForUserExistenceInList next r =
        Event.isUserPartOfList id (r.headerGet username) :: Event.serveNext r :: next r) ∧
    (amw.resolver.IsUserPartOfList id (r.headerGet username) = false →
      responseStatus (amw.CheckForReaderPermissions next r) = some 403 ∧
      nextInvoked (amw.CheckForReaderPermissions next r) = false ∧
      responseStatus (amw.CheckForUserExistenceInList next r) = some 403 ∧
      nextInvoked (amw.CheckForUserExistenceInList next r) = false) ∧
    (amw.resolver.IsOwnerUserOwnerToListById id (r.headerGet username) = true →
      amw.CheckForOwnerPermissions next r =
        Event.isOwnerUserOwnerToListById id (r.headerGet username) ::
          Event.serveNext r :: next r) ∧
    (amw.resolver.IsOwnerUserOwnerToListById id (r.headerGet username) = false →
      responseStatus (amw.CheckForOwnerPermissions next r) = some 403 ∧
      nextInvoked (amw.CheckForOwnerPermissions next r) = false) := by
  simp only [RoleName.rank] at hrole
  refine ⟨?_, ?_, ?_, ?_⟩
  · intro h
    simp [AuthenticationMiddleware.CheckForReaderPermissions,
      AuthenticationMiddleware.CheckForUserExistenceInList, GetID, hid, h]
  · intro h
    simp [AuthenticationMiddleware.CheckForReaderPermissions,
      AuthenticationMiddleware.CheckForUserExistenceInList, GetID, hid, h,
      AuthenticationMiddleware.getRole, RoleAt_Admin, hrole, responseStatus, nextInvoked,
      http_StatusForbidden]
  · intro h
    simp [AuthenticationMiddleware.CheckForOwnerPermissions, hid, h]
  · intro h
    simp [AuthenticationMiddleware.CheckForOwnerPermissions, hid, h,
      AuthenticationMiddleware.getRole, RoleAt_Admin, hrole, responseStatus, nextInvoked,
      http_StatusForbidden]

/-- Claim C4 at a request of the writer Yosif, who is no member of the list: the two
membership checks answer 403. -/
theorem membership_and_ownership_gate_witness :
    ValidateStringID Sample.amw.lib (mapIndex (Sample.request "GET" "Yosif" Sample.lid).vars listId)
      = .ok Sample.uid ∧
    GetUsersRights ((Sample.request "GET" "Yosif" Sample.lid).headerGet username)
      ≠ RoleName.admin.rank ∧
    Sample.amw.resolver.IsUserPartOfList Sample.uid
      ((Sample.request "GET" "Yosif" Sample.lid).headerGet username) = false ∧
    responseStatus (Sample.amw.CheckForReaderPermissions idle
      (Sample.request "GET" "Yosif" Sample.lid)) = some 403 ∧
    nextInvoked (Sample.amw.CheckForReaderPermissions idle
      (Sample.request "GET" "Yosif" Sample.lid)) = false ∧
    responseStatus (Sample.amw.CheckForUserExistenceInList idle
      (Sample.request "GET" "Yosif" Sample.lid)) = some 403 ∧
    nextInvoked (Sample.amw.CheckForUserExistenceInList idle
      (Sample.request "GET" "Yosif" Sample.lid)) = false :=
  ⟨rfl, by decide, by decide,
   (membership_and_ownership_gate Sample.amw idle (Sample.request "GET" "Yosif" Sample.lid)
      Sample.uid
      rfl (by decide)).2.1 (by decide)⟩

/-- Claim C5: for a valid list ID a principal whose role is admin passes
`CheckForReaderPermissions`, `CheckForOwnerPermissions` and `CheckForUserExistenceInList`
whatever the resolver answers: after the resolver call the next handler is called on the same
request and the middleware writes no response. -/
theorem admin_passes_scope_checks (amw : AuthenticationMiddleware) (next : Handler)
    (r : Request) (id : UUID)
    (hid : ValidateStringID amw.lib (mapIndex r.vars listId) = .ok id)
    (hrole : GetUsersRights (r.headerGet username) = RoleName.admin.rank) :
    amw.CheckForReaderPermissions next r =
      Event.isUserPartOfList id (r.headerGet username) :: Event.serveNext r :: next r ∧
    amw.CheckForOwnerPermissions next r =
      Event.isOwnerUserOwnerToListById id (r.headerGet username) ::
        Event.serveNext r :: next r ∧
    amw.CheckForUserExistenceInList next r =
      Event.isUserPartOfList id (r.headerGet username) :: Event.serveNext r :: next r := by
  simp only [RoleName.rank] at hrole
  simp [AuthenticationMiddleware.CheckForReaderPermissions,
    AuthenticationMiddleware.CheckForUserExistenceInList,
    AuthenticationMiddleware.CheckForOwnerPermissions, GetID, hid,
    AuthenticationMiddleware.getRole, RoleAt_Admin, hrole]

/-- Claim C5 at a request of the admin Niki, whom the resolver reports neither as a member nor
as the owner of the list: the owner check lets the request through. -/
theorem admin_passes_scope_checks_witness :
    ValidateStringID Sample.amw.lib (mapIndex (Sample.request "PUT" "Niki" Sample.lid).vars listId)
      = .ok Sample.uid ∧
    GetUsersRights ((Sample.request "PUT" "Niki" Sample.lid).headerGet username)
      = RoleName.admin.rank ∧
    Sample.amw.resolver.IsOwnerUserOwnerToListById Sample.uid "Niki" = false ∧
    Sample.amw.resolver.IsUserPartOfList Sample.uid "Niki" = false ∧
    Sample.amw.CheckForOwnerPermissions idle (Sample.request "PUT" "Niki" Sample.lid) =
      [Event.isOwnerUserOwnerToListById Sample.uid "Niki",
       Event.serveNext (Sample.request "PUT" "Niki" Sample.lid)] :=
  ⟨rfl, by decide, by decide, by decide,
   (admin_passes_scope_checks Sample.amw idle (Sample.request "PUT" "Niki" Sample.lid) Sample.uid
      rfl (by decide)).2.1⟩

theorem ValidateStringID_invalid (lib : UuidLib) (s : String)
    (h : s = "" ∨ lib.Parse s = none) : ∃ msg, ValidateStringID lib s = .error msg := by
  unfold ValidateStringID
  by_cases hs : s = ""
  · exact ⟨"ID cannot be empty", by simp [hs]⟩
  · rcases h with h | h
    · exact absurd h hs
    · exact ⟨"invalid ID format, must be UUID", by simp [hs, h]⟩

/-- Claim C6: when the `listId` path value is empty or does not parse as a UUID, each of
`CheckForReaderPermissions`, `CheckForOwnerPermissions` and `CheckForUserExistenceInList`
answers 400, does not call the resolver and does not call the next handler, whoever the
principal is. -/
theorem invalid_listId_rejected (amw : AuthenticationMiddleware) (next : Handler)
    (r : Request)
    (hid : mapIndex r.vars listId = "" ∨ amw.lib.Parse (mapIndex r.vars listId) = none) :
    (responseStatus (amw.CheckForReaderPermissions next r) = some 400 ∧
      resolverConsulted (amw.CheckForReaderPermissions next r) = false ∧
      nextInvoked (amw.CheckForReaderPermissions next r) = false) ∧
    (responseStatus (amw.CheckForOwnerPermissions next r) = some 400 ∧
      resolverConsulted (amw.CheckForOwnerPermissions next r) = false ∧
      nextInvoked (amw.CheckForOwnerPermissions next r) = false) ∧
    (responseStatus (amw.CheckForUserExistenceInList next r) = some 400 ∧
      resolverConsulted (amw.CheckForUserExistenceInList next r) = false ∧
      nextInvoked (amw.CheckForUserExistenceInList next r) = false) := by
  obtain ⟨msg, hmsg⟩ := ValidateStringID_invalid amw.lib _ hid
  simp [AuthenticationMiddleware.CheckForReaderPermissions,
    AuthenticationMiddleware.CheckForUserExistenceInList,
    AuthenticationMiddleware.CheckForOwnerPermissions, GetID, hmsg, responseStatus,
    nextInvoked, resolverConsulted, http_StatusBadRequest]

/-- Claim C6 at a request of the admin Niki with the path value `not-a-uuid`: status 400, no
resolver call, next not called. -/
theorem invalid_listId_rejected_witness :
    (mapIndex (Sample.request "GET" "Niki" "not-a-uuid").vars listId = "" ∨
      Sample.amw.lib.Parse (mapIndex (Sample.request "GET" "Niki" "not-a-uuid").vars listId)
        = none) ∧
    GetUsersRights ((Sample.request "GET" "Niki" "not-a-uuid").headerGet username)
      = RoleName.admin.rank ∧
    responseStatus (Sample.amw.CheckForReaderPermissions idle
      (Sample.request "GET" "Niki" "not-a-uuid")) = some 400 ∧
    resolverConsulted (Sample.amw.CheckForReaderPermissions idle
      (Sample.request "GET" "Niki" "not-a-uuid")) = false ∧
    nextInvoked (Sample.amw.CheckForReaderPermissions idle
      (Sample.request "GET" "Niki" "not-a-uuid")) = false :=
  ⟨by decide, by decide,
   (invalid_listId_rejected Sample.amw idle (Sample.request "GET" "Niki" "not-a-uuid")
      (by decide)).1⟩

/-! ## The middleware chain of a route -/

theorem headerGet_withValue (r : Request) (k v key : String) :
    (r.withValue k v).headerGet key = r.headerGet key := rfl

theorem vars_withValue (r : Request) (k v : String) : (r.withValue k v).vars = r.vars := rfl

theorem reaches_LoggingMiddleware (next : Handler) (r : Request) :
    reachesBusiness (LoggingMiddleware next r) =
      reachesBusiness (next (r.withValue username (r.headerGet username))) := by
  simp [LoggingMiddleware, reachesBusiness]

theorem reaches_UserExistenceAuthentication (amw : AuthenticationMiddleware) (next : Handler)
    (r : Request) (h : reachesBusiness (amw.UserExistenceAuthentication next r) = true) :
    1 ≤ GetUsersRights (r.headerGet username) ∧ reachesBusiness (next r) = true := by
  unfold AuthenticationMiddleware.UserExistenceAuthentication at h
  rw [RoleAt_Reader] at h
  by_cases hc : GetUsersRights (r.headerGet username) < 1
  · simp [hc, reachesBusiness] at h
  · simp only [hc, if_false] at h
    exact ⟨not_lt.mp hc, by simpa [reachesBusiness] using h⟩

theorem reaches_CheckForAdminPermissions (amw : AuthenticationMiddleware) (next : Handler)
    (r : Request) (h : reachesBusiness (amw.CheckForAdminPermissions next r) = true) :
    GetUsersRights (r.headerGet username) = 4 ∧ reachesBusiness (next r) = true := by
  unfold AuthenticationMiddleware.CheckForAdminPermissions at h
  rw [RoleAt_Admin] at h
  by_cases hc : GetUsersRights (r.headerGet username) = 4
  · exact ⟨hc, by simpa [hc, reachesBusiness] using h⟩
  · simp [hc, reachesBusiness] at h

theorem reaches_CheckForWriterPermissions (amw : AuthenticationMiddleware) (next : Handler)
    (r : Request) (h : reachesBusiness (amw.CheckForWriterPermissions next r) = true) :
    2 ≤ GetUsersRights (r.headerGet username) ∧
      reachesBusiness (next (r.withValue listId (mapIndex r.vars listId))) = true := by
  unfold AuthenticationMiddleware.CheckForWriterPermissions at h
  simp only [AuthenticationMiddleware.getRole, RoleAt_Writer] at h
  by_cases hc : GetUsersRights (r.headerGet username) < 2
  · simp [hc, reachesBusiness] at h
  · simp only [hc, if_false] at h
    exact ⟨not_lt.mp hc, by simpa [reachesBusiness] using h⟩

theorem reaches_CheckForReaderPermissions (amw : AuthenticationMiddleware) (next : Handler)
    (r : Request) (h : reachesBusiness (amw.CheckForReaderPermissions next r) = true) :
    (∃ id, ValidateStringID amw.lib (mapIndex r.vars listId) = .ok id ∧
      (amw.resolver.IsUserPartOfList id (r.headerGet username) = true ∨
        GetUsersRights (r.headerGet username) = 4)) ∧
      reachesBusiness (next r) = true := by
  unfold AuthenticationMiddleware.CheckForReaderPermissions at h
  simp only [AuthenticationMiddleware.getRole, RoleAt_Admin] at h
  cases hv : ValidateStringID amw.lib (mapIndex r.vars listId) with
  | error e => simp [hv, reachesBusiness] at h
  | ok id =>
    simp only [hv] at h
    by_cases hp : amw.resolver.IsUserPartOfList id (r.headerGet username) = true
    · exact ⟨⟨id, rfl, Or.inl hp⟩, by simpa [hp, reachesBusiness] using h⟩
    · by_cases ha : GetUsersRights (r.headerGet username) = 4
      · exact ⟨⟨id, rfl, Or.inr ha⟩, by simpa [ha, reachesBusiness] using h⟩
      · simp [hp, ha, reachesBusiness] at h

theorem reaches_CheckForUserExistenceInList (amw : AuthenticationMiddleware) (next : Handler)
    (r : Request) (h : reachesBusiness (amw.CheckForUserExistenceInList next r) = true) :
    (∃ id, ValidateStringID amw.lib (mapIndex r.vars listId) = .ok id ∧
      (amw.resolver.IsUserPartOfList id (r.headerGet username) = true ∨
        GetUsersRights (r.headerGet username) = 4)) ∧
      reachesBusiness (next r) = true := by
  unfold AuthenticationMiddleware.CheckForUserExistenceInList at h
  simp only [AuthenticationMiddleware.getRole, RoleAt_Admin, GetID] at h
  cases hv : ValidateStringID amw.lib (mapIndex r.vars listId) with
  | error e => simp [hv, reachesBusiness] at h
  | ok id =>
    simp only [hv] at h
    by_cases hp : amw.resolver.IsUserPartOfList id (r.headerGet username) = true
    · exact ⟨⟨id, rfl, Or.inl hp⟩, by simpa [hp, reachesBusiness] using h⟩
    · by_cases ha : GetUsersRights (r.headerGet username) = 4
      · exact ⟨⟨id, rfl, Or.inr ha⟩, by simpa [ha, reachesBusiness] using h⟩
      · simp [hp, ha, reachesBusiness] at h

theorem reaches_CheckForOwnerPermissions (amw : AuthenticationMiddleware) (next : Handler)
    (r : Request) (h : reachesBusiness (amw.CheckForOwnerPermissions next r) = true) :
    (∃ id, ValidateStringID amw.lib (mapIndex r.vars listId) = .ok id ∧
      (amw.resolver.IsOwnerUserOwnerToListById id (r.headerGet username) = true ∨
        GetUsersRights (r.headerGet username) = 4)) ∧
      reachesBusiness (next r) = true := by
  unfold AuthenticationMiddleware.CheckForOwnerPermissions at h
  simp only [AuthenticationMiddleware.getRole, RoleAt_Admin] at h
  cases hv : ValidateStringID amw.lib (mapIndex r.vars listId) with
  | error e => simp [hv, reachesBusiness] at h
  | ok id =>
    simp only [hv] at h
    by_cases hp : amw.resolver.IsOwnerUserOwnerToListById id (r.headerGet username) = true
    · exact ⟨⟨id, rfl, Or.inl hp⟩, by simpa [hp, reachesBusiness] using h⟩
    · by_cases ha : GetUsersRights (r.headerGet username) = 4
      · exact ⟨⟨id, rfl, Or.inr ha⟩, by simpa [ha, reachesBusiness] using h⟩
      · simp [hp, ha, reachesBusiness] at h

/-- The root middleware lets a request through to the subrouter only for a known principal. -/
theorem reaches_root (amw : AuthenticationMiddleware) (inner : Handler) (r : Request)
    (h : reachesBusiness
      ((rootMiddlewares amw).foldr (fun mw h => mw h) inner r) = true) :
    1 ≤ GetUsersRights (r.headerGet username) ∧
      reachesBusiness (inner (r.withValue username (r.headerGet username))) = true := by
  simp only [rootMiddlewares, List.foldr] at h
  rw [reaches_LoggingMiddleware] at h
  have := reaches_UserExistenceAuthentication amw inner _ h
  simpa [headerGet_withValue] using this

theorem serve_eq (amw : AuthenticationMiddleware) (rt : Route) :
    rt.serve amw = (rootMiddlewares amw).foldr (fun mw h => mw h)
      ((rt.subrouter.middlewares amw).foldr (fun mw h => mw h) (businessHandler rt.handler)) := by
  simp [Route.serve, List.foldr_append]

/-- Claim C7, refuted as stated: on the owner-gated route `PUT /todo/api/list/{listId}` a
request of Ivan, whose rank is writer, reaches the business handler when the resolver reports
Ivan as the owner of the list; no error status is written. -/
theorem owner_route_reached_below_owner_rank :
    Sample.updateList ∈ routes ∧
    Sample.updateList.subrouter.required = RoleName.owner ∧
    GetUsersRights ((Sample.request "PUT" "Ivan" Sample.lid).headerGet username)
      < RoleName.owner.rank ∧
    reachesBusiness (Sample.updateList.serve Sample.amw (Sample.request "PUT" "Ivan" Sample.lid))
      = true ∧
    responseStatus (Sample.updateList.serve Sample.amw (Sample.request "PUT" "Ivan" Sample.lid))
      = none := by
  decide

/-- Claim C7, amended: behind the chain `ServerHandler` wires for it, a request reaches the
business handler of a route only if the rank of the principal is at least reader and, on a
route that is not owner-gated, at least the rank the route requires; on an owner-gated route it
reaches the handler only if the list ID is valid and the resolver reports the principal as the
owner of the list or the principal is admin.  On an owner-gated route a known principal with
a valid list ID who is neither the owner nor admin gets 403 and does not reach the handler. -/
theorem route_gate (amw : AuthenticationMiddleware) (rt : Route) (_hrt : rt ∈ routes)
    (r : Request) :
    (reachesBusiness (rt.serve amw r) = true →
      RoleName.reader.rank ≤ GetUsersRights (r.headerGet username) ∧
      (rt.subrouter ≠ Subrouter.authenticationOwnerSubrouter →
        rt.subrouter.required.rank ≤ GetUsersRights (r.headerGet username)) ∧
      (rt.subrouter = Subrouter.authenticationOwnerSubrouter →
        ∃ id, ValidateStringID amw.lib (mapIndex r.vars listId) = .ok id ∧
          (amw.resolver.IsOwnerUserOwnerToListById id (r.headerGet username) = true ∨
            GetUsersRights (r.headerGet username) = RoleName.admin.rank))) ∧
    (rt.subrouter = Subrouter.authenticationOwnerSubrouter →
      RoleName.reader.rank ≤ GetUsersRights (r.headerGet username) →
      ∀ id, ValidateStringID amw.lib (mapIndex r.vars listId) = .ok id →
        amw.resolver.IsOwnerUserOwnerToListById id (r.headerGet username) = false →
        GetUsersRights (r.headerGet username) ≠ RoleName.admin.rank →
        responseStatus (rt.serve amw r) = some 403 ∧
          reachesBusiness (rt.serve amw r) = false) := by
  constructor
  · intro hreach
    rw [serve_eq] at hreach
    obtain ⟨h1, h2⟩ := reaches_root amw _ r hreach
    refine ⟨h1, ?_, ?_⟩
    · intro hne
      obtain ⟨sub, m, p, h⟩ := rt
      cases sub <;> simp only [Subrouter.middlewares, List.foldr] at h2 <;>
        simp only [Subrouter.required, RoleName.rank]
      · have := reaches_CheckForAdminPermissions amw _ _ h2
        simp only [headerGet_withValue] at this; omega
      · exact h1
      · have := reaches_CheckForWriterPermissions amw _ _ h2
        simp only [headerGet_withValue] at this; omega
      · exact h1
      · have h3 := (reaches_CheckForUserExistenceInList amw _ _ h2).2
        have := reaches_CheckForWriterPermissions amw _ _ h3
        simp only [headerGet_withValue] at this; omega
      · exact absurd rfl hne
    · intro he
      obtain ⟨sub, m, p, h⟩ := rt
      simp only at he
      subst he
      simp only [Subrouter.middlewares, List.foldr] at h2
      have := (reaches_CheckForOwnerPermissions amw _ _ h2).1
      simpa [headerGet_withValue, vars_withValue, RoleName.rank] using this
  · intro he hknown id hid hown hadm
    obtain ⟨sub, m, p, h⟩ := rt
    simp only at he
    subst he
    simp only [RoleName.rank] at hknown hadm
    simp [Route.serve, rootMiddlewares, Subrouter.middlewares, LoggingMiddleware,
      AuthenticationMiddleware.UserExistenceAuthentication,
      AuthenticationMiddleware.CheckForOwnerPermissions, AuthenticationMiddleware.getRole,
      headerGet_withValue, vars_withValue, RoleAt_Reader, RoleAt_Admin, not_lt.mpr hknown,
      hid, hown, hadm, responseStatus, reachesBusiness, http_StatusForbidden]

/-- Claim C7, amended, at a request of the writer Yosif on the owner-gated route
`PUT /todo/api/list/{listId}`: Yosif is neither the owner of the list nor admin and gets 403. -/
theorem route_gate_witness :
    Sample.updateList ∈ routes ∧
    responseStatus (Sample.updateList.serve Sample.amw (Sample.request "PUT" "Yosif" Sample.lid))
      = some 403 ∧
    reachesBusiness (Sample.updateList.serve Sample.amw (Sample.request "PUT" "Yosif" Sample.lid))
      = false :=
  ⟨by decide,
   (route_gate Sample.amw Sample.updateList (by decide)
      (Sample.request "PUT" "Yosif" Sample.lid)).2 rfl (by decide) Sample.uid rfl (by decide)
      (by decide)⟩

/-! ## Cursor pagination -/

theorem toInt32_natCast (n : Nat) (h : n < 2 ^ 31) : toInt32 (n : Int) = n := by
  unfold toInt32
  omega

theorem sliceOf_natCast {α : Type} (s : List α) (lo hi : Nat) (h1 : lo ≤ hi)
    (h2 : hi ≤ s.length) : sliceOf s (lo : Int) (hi : Int) = some ((s.take hi).drop lo) := by
  unfold sliceOf
  have : (0 : Int) ≤ lo ∧ (lo : Int) ≤ hi ∧ (hi : Int) ≤ s.length := by omega
  simp [this]

theorem drop_take_window {α : Type} (l : List α) (s k : Nat) :
    (l.take (min (s + k) l.length)).drop s = (l.drop s).take k := by
  rw [List.drop_take]
  rcases Nat.le_total (s + k) l.length with h | h
  · rw [Nat.min_eq_left h]; congr 1; omega
  · rw [Nat.min_eq_right h]
    rw [List.take_of_length_le (by simp), List.take_of_length_le (by simp; omega)]

theorem GetLists_page_eq (sl : ServiceList) (lists : List ListOutput) (k s : Nat)
    (hk : 1 ≤ k) (hs : s < lists.length) :
    GetLists.page sl lists (lists.length : Int) (k : Int) (s : Int) =
      ({ pageInfo :=
          { StartCursor := ((lists.drop s).take k).head?.map (·.ID)
            EndCursor := ((lists.drop s).take k).getLast?.map (·.ID)
            HasNextPage := decide (s + k < lists.length) } },
       .ok { TotalCount := lists.length
             Lists := (lists.drop s).take k
             PageInfo :=
              { StartCursor := ((lists.drop s).take k).head?.map (·.ID)
                EndCursor := ((lists.drop s).take k).getLast?.map (·.ID)
                HasNextPage := decide (s + k < lists.length) } }) := by
  have hscope : (if (s : Int) + k > lists.length then (lists.length : Int) else (s : Int) + k)
      = ((min (s + k) lists.length : Nat) : Int) := by
    split <;> omega
  have hne : (lists.drop s).take k ≠ [] := by
    intro h
    have := congrArg List.length h
    simp at this
    omega
  obtain ⟨f, hf⟩ : ∃ f, ((lists.drop s).take k).head? = some f := by
    cases h : (lists.drop s).take k with
    | nil => exact absurd h hne
    | cons a t => exact ⟨a, rfl⟩
  obtain ⟨l, hl⟩ : ∃ l, ((lists.drop s).take k).getLast? = some l :=
    ⟨_, List.getLast?_eq_getLast _ hne⟩
  unfold GetLists.page
  simp only [hscope]
  rw [sliceOf_natCast lists s _ (by omega) (by omega), drop_take_window]
  simp only [hf, hl, Option.map_some']
  congr 3 <;> simp <;> omega


theorem GetListPosition_loop_getElem (l : List ListOutput) (hnd : (l.map (·.ID)).Nodup) :
    ∀ (i : Nat) (h : i < l.length) (pos : Nat),
      GetListPosition.loop (l[i]).ID l pos = some (pos + i) := by
  induction l with
  | nil => intro i h; simp at h
  | cons a t ih =>
    intro i h pos
    rw [List.map_cons, List.nodup_cons] at hnd
    cases i with
    | zero => simp [GetListPosition.loop]
    | succ j =>
      have hj : j < t.length := by simpa using h
      have hne : a.ID ≠ (t[j]).ID := by
        intro he
        apply hnd.1
        rw [he]
        exact List.mem_map.mpr ⟨t[j], List.getElem_mem _, rfl⟩
      simp only [List.getElem_cons_succ, GetListPosition.loop, hne, if_false]
      rw [ih hnd.2 j hj (pos + 1)]
      congr 1; omega

theorem GetListPosition_getElem (l : List ListOutput) (hnd : (l.map (·.ID)).Nodup)
    (i : Nat) (h : i < l.length) : GetListPosition (l[i]).ID l = .ok (i : Int) := by
  unfold GetListPosition
  rw [GetListPosition_loop_getElem l hnd i h 0]
  simp

theorem GetLists_startsAt (lists : List ListOutput) (hN : lists.length < 2 ^ 31)
    (hnd : (lists.map (·.ID)).Nodup) (k : Int) (sl : ServiceList) (after : Option String)
    (s : Nat) (hs : s < lists.length) (hst : startsAt lists sl after s) :
    GetLists sl lists (some k) after = GetLists.page sl lists (lists.length : Int) k (s : Int) := by
  unfold GetLists
  rw [toInt32_natCast _ hN]
  rcases hst with ⟨h0, ha, he⟩ | ⟨i, hi, hsi, ha⟩
  · subst h0 ha
    simp [he]
  · subst hsi ha
    simp only [Option.isNone_some, Bool.and_false, Bool.false_eq_true, if_false,
      Option.getD_some]
    rw [GetListPosition_getElem lists hnd i hi]
    have : ¬ ((i : Int) = (lists.length : Int) - 1) := by omega
    simp [this]

theorem getLast?_window (lists : List ListOutput) (s k : Nat) (hk : 1 ≤ k)
    (h : s + k < lists.length) :
    ∃ i, ∃ hi : i < lists.length, s + k = i + 1 ∧
      ((lists.drop s).take k).getLast? = some lists[i] := by
  refine ⟨s + k - 1, by omega, by omega, ?_⟩
  rw [List.getLast?_eq_getElem?]
  have hl : ((lists.drop s).take k).length = k := by simp; omega
  rw [hl, List.getElem?_take_of_lt (by omega), List.getElem?_drop]
  rw [List.getElem?_eq_getElem (by omega)]
  congr 2; omega

theorem fetchAllLists_from (lists : List ListOutput) (hN : lists.length < 2 ^ 31)
    (hnd : (lists.map (·.ID)).Nodup) (k : Nat) (hk : 1 ≤ k) :
    ∀ (fuel s : Nat) (sl : ServiceList) (after : Option String),
      s < lists.length → lists.length - s ≤ fuel * k → startsAt lists sl after s →
      ∃ pages, fetchAllLists lists k fuel sl after = some pages ∧
        pages.flatten = lists.drop s ∧ pages.length = (lists.length - s + k - 1) / k := by
  intro fuel
  induction fuel with
  | zero => intro s sl after hs hf; omega
  | succ n ih =>
    intro s sl after hs hf hst
    unfold fetchAllLists
    rw [GetLists_startsAt lists hN hnd k sl after s hs hst, GetLists_page_eq sl lists k s hk hs]
    simp only
    by_cases hnext : s + k < lists.length
    · simp only [hnext, decide_True, if_true]
      have hfuel : lists.length - (s + k) ≤ n * k := by
        rw [Nat.succ_mul] at hf; omega
      have hst2 : ∀ sl2, startsAt lists sl2
          (((lists.drop s).take k).getLast?.map (·.ID)) (s + k) := by
        intro sl2
        obtain ⟨i, hi, hsk, hlast⟩ := getLast?_window lists s k hk hnext
        exact Or.inr ⟨i, hi, hsk, by rw [hlast]; rfl⟩
      obtain ⟨pages, hp, hflat, hlen⟩ := ih (s + k)
        { pageInfo :=
            { StartCursor := ((lists.drop s).take k).head?.map (·.ID)
              EndCursor := ((lists.drop s).take k).getLast?.map (·.ID)
              HasNextPage := true } }
        _ hnext hfuel (hst2 _)
      refine ⟨_ :: pages, by rw [hp]; rfl, ?_, ?_⟩
      · rw [List.flatten_cons, hflat, ← List.drop_drop, List.take_append_drop]
      · rw [List.length_cons, hlen]
        have : lists.length - s + k - 1 = (lists.length - (s + k) + k - 1) + k := by omega
        rw [this, Nat.add_div_right _ (by omega)]
    · simp only [hnext, decide_False, Bool.false_eq_true, if_false]
      refine ⟨_, rfl, ?_, ?_⟩
      · simp only [List.flatten_cons, List.flatten_nil, List.append_nil]
        exact List.take_of_length_le (by simp; omega)
      · simp only [List.length_singleton]
        symm
        apply Nat.div_eq_of_lt_le <;> simp <;> omega

theorem GetLists_page_result (sl1 sl2 : ServiceList) (lists : List ListOutput)
    (totalCount first startPos : Int) :
    (GetLists.page sl1 lists totalCount first startPos).2 =
      (GetLists.page sl2 lists totalCount first startPos).2 := by
  unfold GetLists.page
  simp only
  split
  · rfl
  · split <;> rfl

theorem GetTodosFromList_page_result (st1 st2 : ServiceTodo) (todos : List TodoOutput)
    (totalCount first startPos : Int) :
    (GetTodosFromList.page st1 todos totalCount first startPos).2 =
      (GetTodosFromList.page st2 todos totalCount first startPos).2 := by
  unfold GetTodosFromList.page
  simp only
  split
  · rfl
  · split <;> rfl

/-- Claim C8, refuted as stated: the same call `first = 2`, no `after`, on the same three
items returns the page `[a, b]` on a fresh service and the page `[c]` on the service that has
answered that call once before; likewise for `GetTodosFromList`. -/
theorem pagination_remembers_end_cursor :
    (GetLists NewServiceList [Sample.listA, Sample.listB, Sample.listC] (some 2) none).2 ≠
      (GetLists
        (GetLists NewServiceList [Sample.listA, Sample.listB, Sample.listC] (some 2) none).1
        [Sample.listA, Sample.listB, Sample.listC] (some 2) none).2 ∧
    (GetTodosFromList NewServiceTodo [Sample.todo "a", Sample.todo "b", Sample.todo "c"]
        (some 2) none).2 ≠
      (GetTodosFromList
        (GetTodosFromList NewServiceTodo [Sample.todo "a", Sample.todo "b", Sample.todo "c"]
          (some 2) none).1
        [Sample.todo "a", Sample.todo "b", Sample.todo "c"] (some 2) none).2 := by
  decide

/-- Claim C8, amended: what `GetLists` and `GetTodosFromList` return is a function of the item
sequence, `first`, `after` and the end cursor stored on the service: two calls with the same
three inputs return the same items and page info (or the same error) whenever `after` is
given, or `first` is absent, or the two services store the same end cursor. -/
theorem pagination_result_determined (first : Option Int) (after : Option String) :
    (∀ (lists : List ListOutput) (sl1 sl2 : ServiceList),
      (after ≠ none ∨ first = none ∨ sl1.pageInfo.EndCursor = sl2.pageInfo.EndCursor) →
      (GetLists sl1 lists first after).2 = (GetLists sl2 lists first after).2) ∧
    (∀ (todos : List TodoOutput) (st1 st2 : ServiceTodo),
      (after ≠ none ∨ first = none ∨ st1.pageInfo.EndCursor = st2.pageInfo.EndCursor) →
      (GetTodosFromList st1 todos first after).2 =
        (GetTodosFromList st2 todos first after).2) := by
  constructor
  · intro lists sl1 sl2 h
    unfold GetLists
    cases after with
    | some a =>
      simp only [Option.isNone_some, Bool.and_false, Bool.false_eq_true, if_false]
      split
      · rfl
      · split
        · rfl
        · exact GetLists_page_result _ _ _ _ _ _
    | none =>
      cases first with
      | none => simp
      | some f =>
        have he : sl1.pageInfo.EndCursor = sl2.pageInfo.EndCursor := by
          rcases h with h | h | h
          · exact absurd rfl h
          · cases h
          · exact h
        simp only [Option.isNone_some, Bool.false_and, Bool.false_eq_true, if_false, he]
        split
        · split
          · rfl
          · split
            · rfl
            · exact GetLists_page_result _ _ _ _ _ _
        · exact GetLists_page_result _ _ _ _ _ _
  · intro todos st1 st2 h
    unfold GetTodosFromList
    cases after with
    | some a =>
      simp only [Option.isNone_some, Bool.and_false, Bool.false_eq_true, if_false]
      split
      · rfl
      · split
        · rfl
        · exact GetTodosFromList_page_result _ _ _ _ _ _
    | none =>
      cases first with
      | none => simp
      | some f =>
        have he : st1.pageInfo.EndCursor = st2.pageInfo.EndCursor := by
          rcases h with h | h | h
          · exact absurd rfl h
          · cases h
          · exact h
        simp only [Option.isNone_some, Bool.false_and, Bool.false_eq_true, if_false, he]
        split
        · split
          · rfl
          · split
            · rfl
            · exact GetTodosFromList_page_result _ _ _ _ _ _
        · exact GetTodosFromList_page_result _ _ _ _ _ _

/-- Claim C8, amended, at the call `first = 1, after = a` on a fresh service and on a service
that has served a page before: the same result. -/
theorem pagination_result_determined_witness :
    (some "a" ≠ none ∨ some (1 : Int) = none ∨
      NewServiceList.pageInfo.EndCursor =
        (GetLists NewServiceList [Sample.listA, Sample.listB, Sample.listC]
          (some 2) none).1.pageInfo.EndCursor) ∧
    (GetLists NewServiceList [Sample.listA, Sample.listB, Sample.listC]
        (some 1) (some "a")).2 =
      (GetLists
        (GetLists NewServiceList [Sample.listA, Sample.listB, Sample.listC] (some 2) none).1
        [Sample.listA, Sample.listB, Sample.listC] (some 1) (some "a")).2 :=
  ⟨Or.inl (by decide),
   (pagination_result_determined (some 1) (some "a")).1
      [Sample.listA, Sample.listB, Sample.listC] NewServiceList _ (Or.inl (by decide))⟩

/-- Claim C9: for a non-empty sequence of `N` items with pairwise distinct IDs (`N` within
`int32`) and a page size `k ≥ 1`, the client that asks a fresh service for `first = k` without
cursor and then keeps passing the end cursor of the last page as `after` while `hasNextPage`
holds gets pages whose concatenation is the original sequence, and it gets `⌈N / k⌉` of
them. -/
theorem pagination_round_trip (lists : List ListOutput) (k : Nat) (hne : lists ≠ [])
    (hnd : (lists.map (·.ID)).Nodup) (hk : 1 ≤ k) (hN : lists.length < 2 ^ 31)
    (fuel : Nat) (hfuel : (lists.length + k - 1) / k ≤ fuel) :
    ∃ pages, fetchAllLists lists k fuel NewServiceList none = some pages ∧
      pages.flatten = lists ∧ pages.length = (lists.length + k - 1) / k := by
  have hpos : 0 < lists.length := List.length_pos.mpr hne
  have hf : lists.length - 0 ≤ fuel * k := by
    have h1 : (lists.length + k - 1) / k < fuel + 1 := by omega
    rw [Nat.div_lt_iff_lt_mul (by omega), Nat.succ_mul] at h1
    omega
  have hst : startsAt lists NewServiceList none 0 := Or.inl ⟨rfl, rfl, rfl⟩
  simpa using fetchAllLists_from lists hN hnd k hk fuel 0 NewServiceList none hpos hf hst

/-- Claim C9 at the items `a, b, c` and page size 2: two pages, `[a, b]` and `[c]`. -/
theorem pagination_round_trip_witness :
    [Sample.listA, Sample.listB, Sample.listC] ≠ [] ∧
    ([Sample.listA, Sample.listB, Sample.listC].map (·.ID)).Nodup ∧
    ∃ pages, fetchAllLists [Sample.listA, Sample.listB, Sample.listC] ((2 : Nat) : Int) 2
        NewServiceList none = some pages ∧
      pages.flatten = [Sample.listA, Sample.listB, Sample.listC] ∧
      pages.length = ([Sample.listA, Sample.listB, Sample.listC].length + 2 - 1) / 2 :=
  ⟨by decide, by decide,
   pagination_round_trip [Sample.listA, Sample.listB, Sample.listC] 2 (by decide) (by decide)
      (by decide) (by decide) 2 (by decide)⟩

/-- Claim C10: for a non-empty sequence of `N` items (`N` within `int32`) and `first = k` with
`k ≥ 1`, `GetLists` without cursor on a fresh service returns the first `min k N` items in
order, the ID of the first of them as start cursor, the ID of the last of them as end cursor,
`hasNextPage` exactly when `k < N`, and `N` as total count. -/
theorem first_page_without_cursor (lists : List ListOutput) (k : Nat) (hne : lists ≠ [])
    (hk : 1 ≤ k) (hN : lists.length < 2 ^ 31) :
    ∃ firstItem lastItem,
      (lists.take k).head? = some firstItem ∧ (lists.take k).getLast? = some lastItem ∧
      (lists.take k).length = min k lists.length ∧
      (GetLists NewServiceList lists (some k) none).2 =
        .ok { TotalCount := lists.length
              Lists := lists.take k
              PageInfo :=
                { StartCursor := some firstItem.ID
                  EndCursor := some lastItem.ID
                  HasNextPage := decide (k < lists.length) } } := by
  have hpos : 0 < lists.length := List.length_pos.mpr hne
  have htake : lists.take k ≠ [] := by
    intro h
    have := congrArg List.length h
    simp only [List.length_take, List.length_nil] at this
    omega
  obtain ⟨f, hf⟩ : ∃ f, (lists.take k).head? = some f := by
    cases h : lists.take k with
    | nil => exact absurd h htake
    | cons a t => exact ⟨a, rfl⟩
  refine ⟨f, (lists.take k).getLast htake, hf, List.getLast?_eq_getLast _ htake,
    List.length_take k lists, ?_⟩
  have hcall : GetLists NewServiceList lists (some (k : Int)) none =
      GetLists.page NewServiceList lists (lists.length : Int) (k : Int) ((0 : Nat) : Int) := by
    unfold GetLists
    rw [toInt32_natCast _ hN]
    simp [NewServiceList, PageInfo.zero]
  rw [hcall, GetLists_page_eq NewServiceList lists k 0 hk hpos]
  simp [hf, List.getLast?_eq_getLast _ htake]

/-- Claim C10 at the items `a, b, c` and `first = 2`: the page `[a, b]`, cursors `a` and `b`,
`hasNextPage = true`, total count 3. -/
theorem first_page_without_cursor_witness :
    [Sample.listA, Sample.listB, Sample.listC] ≠ [] ∧
    ∃ firstItem lastItem,
      ([Sample.listA, Sample.listB, Sample.listC].take 2).head? = some firstItem ∧
      ([Sample.listA, Sample.listB, Sample.listC].take 2).getLast? = some lastItem ∧
      ([Sample.listA, Sample.listB, Sample.listC].take 2).length =
        min 2 [Sample.listA, Sample.listB, Sample.listC].length ∧
      (GetLists NewServiceList [Sample.listA, Sample.listB, Sample.listC]
          (some ((2 : Nat) : Int)) none).2 =
        .ok { TotalCount := ([Sample.listA, Sample.listB, Sample.listC].length : Int)
              Lists := [Sample.listA, Sample.listB, Sample.listC].take 2
              PageInfo :=
                { StartCursor := some firstItem.ID
                  EndCursor := some lastItem.ID
                  HasNextPage :=
                    decide (2 < [Sample.listA, Sample.listB, Sample.listC].length) } } :=
  ⟨by decide,
   first_page_without_cursor [Sample.listA, Sample.listB, Sample.listC] 2 (by decide)
      (by decide) (by decide)⟩

/-! ## Cursor pagination: pages behind a cursor, errors and panics -/

theorem GetTodoPosition_loop_getElem (l : List TodoOutput) (hnd : (l.map (·.ID)).Nodup) :
    ∀ (i : Nat) (h : i < l.length) (pos : Nat),
      GetTodoPosition.loop (l[i]).ID l pos = some (pos + i) := by
  induction l with
  | nil => intro i h; simp at h
  | cons a t ih =>
    intro i h pos
    rw [List.map_cons, List.nodup_cons] at hnd
    cases i with
    | zero => simp [GetTodoPosition.loop]
    | succ j =>
      have hj : j < t.length := by simpa using h
      have hne : a.ID ≠ (t[j]).ID := by
        intro he
        apply hnd.1
        rw [he]
        exact List.mem_map.mpr ⟨t[j], List.getElem_mem _, rfl⟩
      simp only [List.getElem_cons_succ, GetTodoPosition.loop, hne, if_false]
      rw [ih hnd.2 j hj (pos + 1)]
      congr 1; omega

theorem GetTodoPosition_getElem (l : List TodoOutput) (hnd : (l.map (·.ID)).Nodup)
    (i : Nat) (h : i < l.length) : GetTodoPosition (l[i]).ID l = .ok (i : Int) := by
  unfold GetTodoPosition
  rw [GetTodoPosition_loop_getElem l hnd i h 0]
  simp

theorem GetLists_absent_first (sl : ServiceList) (lists : List ListOutput)
    (hN : lists.length < 2 ^ 31) (c : String) :
    GetLists sl lists none (some c) = GetLists sl lists (some (lists.length : Int)) (some c) := by
  unfold GetLists
  simp [toInt32_natCast _ hN]

/-- Claim C11: for a sequence of `N` items with pairwise distinct IDs (`N` within `int32`) and
a cursor equal to the ID of the item at an index `i < N - 1`, `GetLists` with `first = k`,
`k ≥ 1`, returns the items at the indices `i + 1` up to but excluding `min (i + 1 + k) N`, the
IDs of the first and last of them as cursors, `hasNextPage` exactly when `i + 1 + k < N` and
`N` as total count, whatever the service stored before; without `first` it returns everything
behind the cursor with `hasNextPage = false`. -/
theorem page_after_cursor (sl : ServiceList) (lists : List ListOutput)
    (hnd : (lists.map (·.ID)).Nodup) (hN : lists.length < 2 ^ 31) (i : Nat)
    (hi : i + 1 < lists.length) :
    (∀ k : Nat, 1 ≤ k →
      (GetLists sl lists (some (k : Int)) (some lists[i].ID)).2 =
        .ok { TotalCount := lists.length
              Lists := (lists.take (min (i + 1 + k) lists.length)).drop (i + 1)
              PageInfo :=
                { StartCursor := some lists[i + 1].ID
                  EndCursor := some lists[min (i + 1 + k) lists.length - 1].ID
                  HasNextPage := decide (i + 1 + k < lists.length) } }) ∧
    (GetLists sl lists none (some lists[i].ID)).2 =
      .ok { TotalCount := lists.length
            Lists := lists.drop (i + 1)
            PageInfo :=
              { StartCursor := some lists[i + 1].ID
                EndCursor := some lists[lists.length - 1].ID
                HasNextPage := false } } := by
  have key : ∀ k : Nat, 1 ≤ k →
      (GetLists sl lists (some (k : Int)) (some lists[i].ID)).2 =
        .ok { TotalCount := lists.length
              Lists := (lists.take (min (i + 1 + k) lists.length)).drop (i + 1)
              PageInfo :=
                { StartCursor := some lists[i + 1].ID
                  EndCursor := some lists[min (i + 1 + k) lists.length - 1].ID
                  HasNextPage := decide (i + 1 + k < lists.length) } } := by
    intro k hk
    have hst : startsAt lists sl (some lists[i].ID) (i + 1) :=
      Or.inr ⟨i, by omega, rfl, rfl⟩
    rw [GetLists_startsAt lists hN hnd k sl _ (i + 1) hi hst,
      GetLists_page_eq sl lists k (i + 1) hk hi, drop_take_window]
    have hh : ((lists.drop (i + 1)).take k).head? = some lists[i + 1] := by
      rw [List.head?_take, if_neg (by omega), List.head?_drop, List.getElem?_eq_getElem hi]
    have hl : ((lists.drop (i + 1)).take k).getLast? =
        some lists[min (i + 1 + k) lists.length - 1] := by
      rw [List.getLast?_eq_getElem?]
      have hlen : ((lists.drop (i + 1)).take k).length =
          min (i + 1 + k) lists.length - (i + 1) := by
        simp; omega
      rw [hlen, List.getElem?_take_of_lt (by omega), List.getElem?_drop,
        List.getElem?_eq_getElem (by omega)]
      congr 2; omega
    simp only [hh, hl, Option.map_some']
  refine ⟨key, ?_⟩
  rw [GetLists_absent_first sl lists hN, key lists.length (by omega)]
  have h1 : min (i + 1 + lists.length) lists.length = lists.length := by omega
  simp only [h1]
  congr 2
  · simp
  · simp

/-- Claim C12: with neither `first` nor `after`, `GetLists` and `GetTodosFromList` return the
whole sequence (of a length within `int32`, the empty one included) as one page with
`hasNextPage = false` and the length as total count, whatever the service stored before. -/
theorem whole_sequence_without_arguments (sl : ServiceList) (st : ServiceTodo)
    (lists : List ListOutput) (todos : List TodoOutput)
    (hN : lists.length < 2 ^ 31) (hM : todos.length < 2 ^ 31) :
    (GetLists sl lists none none).2 =
      .ok { TotalCount := lists.length, Lists := lists,
            PageInfo := { StartCursor := none, EndCursor := none, HasNextPage := false } } ∧
    (GetTodosFromList st todos none none).2 =
      .ok { TotalCount := todos.length, Todos := todos,
            PageInfo := { StartCursor := none, EndCursor := none, HasNextPage := false } } := by
  simp [GetLists, GetTodosFromList, toInt32_natCast _ hN, toInt32_natCast _ hM, PageInfo.zero]

/-- Claim C13: on a non-empty sequence with pairwise distinct IDs (of a length within `int32`)
a cursor equal to the ID of the last item makes `GetLists` return the error
`lists is out of range` and `GetTodosFromList` the error `todo is out of range`, for every
`first` and every stored state; no page is returned and the stored page info is reset. -/
theorem cursor_at_last_item (sl : ServiceList) (st : ServiceTodo) (first : Option Int)
    (lists : List ListOutput) (todos : List TodoOutput)
    (hl : lists ≠ []) (ht : todos ≠ [])
    (hndl : (lists.map (·.ID)).Nodup) (hndt : (todos.map (·.ID)).Nodup)
    (hN : lists.length < 2 ^ 31) (hM : todos.length < 2 ^ 31) :
    GetLists sl lists first (some (lists.getLast hl).ID) =
      ({ pageInfo := PageInfo.zero }, .err "lists is out of range") ∧
    GetTodosFromList st todos first (some (todos.getLast ht).ID) =
      ({ pageInfo := PageInfo.zero }, .err "todo is out of range") := by
  have hpl : 0 < lists.length := List.length_pos.mpr hl
  have hpt : 0 < todos.length := List.length_pos.mpr ht
  constructor
  · have hpos := GetListPosition_getElem lists hndl (lists.length - 1) (by omega)
    rw [← List.getLast_eq_getElem lists hl] at hpos
    have hc : ((lists.length - 1 : Nat) : Int) = (lists.length : Int) - 1 := by omega
    unfold GetLists
    simp [hpos, toInt32_natCast _ hN, hc]
  · have hpos := GetTodoPosition_getElem todos hndt (todos.length - 1) (by omega)
    rw [← List.getLast_eq_getElem todos ht] at hpos
    have hc : ((todos.length - 1 : Nat) : Int) = (todos.length : Int) - 1 := by omega
    unfold GetTodosFromList
    simp [hpos, toInt32_natCast _ hM, hc]

theorem GetListPosition_loop_none (c : String) (l : List ListOutput)
    (h : ∀ x ∈ l, x.ID ≠ c) : ∀ pos, GetListPosition.loop c l pos = none := by
  induction l with
  | nil => intro pos; rfl
  | cons a t ih =>
    intro pos
    have ha : a.ID ≠ c := h a (List.mem_cons_self _ _)
    simp only [GetListPosition.loop, ha, if_false]
    exact ih (fun x hx => h x (List.mem_cons_of_mem _ hx)) _

theorem GetTodoPosition_loop_none (c : String) (l : List TodoOutput)
    (h : ∀ x ∈ l, x.ID ≠ c) : ∀ pos, GetTodoPosition.loop c l pos = none := by
  induction l with
  | nil => intro pos; rfl
  | cons a t ih =>
    intro pos
    have ha : a.ID ≠ c := h a (List.mem_cons_self _ _)
    simp only [GetTodoPosition.loop, ha, if_false]
    exact ih (fun x hx => h x (List.mem_cons_of_mem _ hx)) _

theorem GetListPosition_loop_some (c : String) (l : List ListOutput)
    (h : ∃ x ∈ l, x.ID = c) :
    ∀ pos, ∃ i, ∃ hi : i < l.length,
      GetListPosition.loop c l pos = some (pos + i) ∧ l[i].ID = c := by
  induction l with
  | nil => obtain ⟨x, hx, _⟩ := h; simp at hx
  | cons a t ih =>
    intro pos
    by_cases ha : a.ID = c
    · exact ⟨0, by simp, by simp [GetListPosition.loop, ha], by simpa using ha⟩
    · have ht : ∃ x ∈ t, x.ID = c := by
        obtain ⟨x, hx, hxc⟩ := h
        rcases List.mem_cons.mp hx with rfl | hx
        · exact absurd hxc ha
        · exact ⟨x, hx, hxc⟩
      obtain ⟨i, hi, hloop, hid⟩ := ih ht (pos + 1)
      refine ⟨i + 1, by simpa using hi, ?_, by simpa using hid⟩
      simp only [GetListPosition.loop, ha, if_false, hloop]
      congr 1; omega

theorem GetTodoPosition_loop_some (c : String) (l : List TodoOutput)
    (h : ∃ x ∈ l, x.ID = c) :
    ∀ pos, ∃ i, ∃ hi : i < l.length,
      GetTodoPosition.loop c l pos = some (pos + i) ∧ l[i].ID = c := by
  induction l with
  | nil => obtain ⟨x, hx, _⟩ := h; simp at hx
  | cons a t ih =>
    intro pos
    by_cases ha : a.ID = c
    · exact ⟨0, by simp, by simp [GetTodoPosition.loop, ha], by simpa using ha⟩
    · have ht : ∃ x ∈ t, x.ID = c := by
        obtain ⟨x, hx, hxc⟩ := h
        rcases List.mem_cons.mp hx with rfl | hx
        · exact absurd hxc ha
        · exact ⟨x, hx, hxc⟩
      obtain ⟨i, hi, hloop, hid⟩ := ih ht (pos + 1)
      refine ⟨i + 1, by simpa using hi, ?_, by simpa using hid⟩
      simp only [GetTodoPosition.loop, ha, if_false, hloop]
      congr 1; omega

/-- Claim C14: when no item has the cursor as its ID (in particular on an empty sequence),
`GetLists` returns the error `list not found` and `GetTodosFromList` the error
`todo not found`, for every `first` and every stored state; when some item has that ID, the
cursor lookup returns an index at which an item with that ID stands. -/
theorem cursor_lookup (c : String) (lists : List ListOutput) (todos : List TodoOutput) :
    ((∀ x ∈ lists, x.ID ≠ c) → ∀ (sl : ServiceList) (first : Option Int),
      GetLists sl lists first (some c) = ({ pageInfo := PageInfo.zero }, .err "list not found")) ∧
    ((∀ x ∈ todos, x.ID ≠ c) → ∀ (st : ServiceTodo) (first : Option Int),
      GetTodosFromList st todos first (some c) =
        ({ pageInfo := PageInfo.zero }, .err "todo not found")) ∧
    ((∃ x ∈ lists, x.ID = c) →
      ∃ i, ∃ hi : i < lists.length,
        GetListPosition c lists = .ok (i : Int) ∧ lists[i].ID = c) ∧
    ((∃ x ∈ todos, x.ID = c) →
      ∃ i, ∃ hi : i < todos.length,
        GetTodoPosition c todos = .ok (i : Int) ∧ todos[i].ID = c) := by
  refine ⟨?_, ?_, ?_, ?_⟩
  · intro h sl first
    simp [GetLists, GetListPosition, GetListPosition_loop_none c lists h 0]
  · intro h st first
    simp [GetTodosFromList, GetTodoPosition, GetTodoPosition_loop_none c todos h 0]
  · intro h
    obtain ⟨i, hi, hloop, hid⟩ := GetListPosition_loop_some c lists h 0
    exact ⟨i, hi, by simp [GetListPosition, hloop], hid⟩
  · intro h
    obtain ⟨i, hi, hloop, hid⟩ := GetTodoPosition_loop_some c todos h 0
    exact ⟨i, hi, by simp [GetTodoPosition, hloop], hid⟩

theorem GetLists_page_panics_first_zero (sl : ServiceList) (lists : List ListOutput)
    (total : Int) : GetLists.page sl lists total 0 0 = (sl, .panic) := by
  unfold GetLists.page
  rcases lt_or_le total 0 with h | h
  · have e : (if (0 : Int) + 0 > total then total else 0 + 0) = total := if_pos (by omega)
    have hs : sliceOf lists 0 total = none := by
      unfold sliceOf
      exact if_neg (by omega)
    simp only [e, hs]
  · have e : (if (0 : Int) + 0 > total then total else 0 + 0) = 0 := by
      rw [if_neg (by omega)]; rfl
    have hs : sliceOf lists 0 0 = some [] := by
      unfold sliceOf
      rw [if_pos (by omega)]
      rfl
    simp only [e, hs, List.head?_nil]

theorem GetLists_page_panics_on_empty (sl : ServiceList) (k : Int) :
    GetLists.page sl [] 0 k 0 = (sl, .panic) := by
  unfold GetLists.page
  rcases lt_or_le 0 k with h | h
  · have e : (if (0 : Int) + k > 0 then (0 : Int) else 0 + k) = 0 := if_pos (by omega)
    have hs : sliceOf ([] : List ListOutput) 0 0 = some [] := by
      unfold sliceOf
      rw [if_pos (by simp)]
      rfl
    simp only [e, hs, List.head?_nil]
  · have e : (if (0 : Int) + k > 0 then (0 : Int) else 0 + k) = k := by
      rw [if_neg (by omega)]; omega
    rcases eq_or_lt_of_le h with h0 | hneg
    · have hs : sliceOf ([] : List ListOutput) 0 k = some [] := by
        subst h0
        unfold sliceOf
        rw [if_pos (by simp)]
        rfl
      simp only [e, hs, List.head?_nil]
    · have hs : sliceOf ([] : List ListOutput) 0 k = none := by
        unfold sliceOf
        exact if_neg (by omega)
      simp only [e, hs]

theorem GetLists_fresh_no_cursor (lists : List ListOutput) (k : Int) :
    GetLists NewServiceList lists (some k) none =
      GetLists.page NewServiceList lists (toInt32 lists.length) k 0 := by
  unfold GetLists
  generalize toInt32 (lists.length : Int) = total
  rfl

theorem toInt32_zero : toInt32 0 = 0 := by
  unfold toInt32
  omega

/-- Claim C15, the code at a failing input: on a fresh service `GetLists` with `first = 0` and no
cursor panics on every item sequence: the page `listsOutputs[0:0]` is empty and
`pagedLists[firstList]` is out of range. -/
theorem GetLists_panics_on_first_zero (lists : List ListOutput) :
    GetLists NewServiceList lists (some 0) none = (NewServiceList, .panic) := by
  rw [GetLists_fresh_no_cursor]
  exact GetLists_page_panics_first_zero _ _ _

/-- Claim C16, the code at the failing inputs: on a fresh service `GetLists` on the empty
sequence with any `first` present and no cursor panics instead of returning an empty page. -/
theorem GetLists_panics_on_empty_sequence (k : Int) :
    GetLists NewServiceList [] (some k) none = (NewServiceList, .panic) := by
  rw [GetLists_fresh_no_cursor]
  have h0 : toInt32 ((([] : List ListOutput).length : Nat) : Int) = 0 := toInt32_zero
  rw [h0]
  exact GetLists_page_panics_on_empty _ _

/-! ## The two paginations agree -/

theorem position_loop_agree (c : String) :
    ∀ (lists : List ListOutput) (todos : List TodoOutput),
      lists.map (·.ID) = todos.map (·.ID) →
      ∀ pos, GetListPosition.loop c lists pos = GetTodoPosition.loop c todos pos := by
  intro lists
  induction lists with
  | nil =>
    intro todos h pos
    cases todos with
    | nil => rfl
    | cons b t => simp at h
  | cons a l ih =>
    intro todos h pos
    cases todos with
    | nil => simp at h
    | cons b t =>
      simp only [List.map_cons, List.cons.injEq] at h
      simp only [GetListPosition.loop, GetTodoPosition.loop, h.1]
      rw [ih t h.2 (pos + 1)]

theorem ends_agree (pl : List ListOutput) (pt : List TodoOutput)
    (hmap : pl.map (·.ID) = pt.map (·.ID)) :
    (pl = [] ∧ pt = []) ∨
      ∃ a b c d, pl.head? = some a ∧ pl.getLast? = some b ∧ pt.head? = some c ∧
        pt.getLast? = some d ∧ a.ID = c.ID ∧ b.ID = d.ID := by
  cases pl with
  | nil =>
    cases pt with
    | nil => exact Or.inl ⟨rfl, rfl⟩
    | cons c t => simp at hmap
  | cons a l =>
    cases pt with
    | nil => simp at hmap
    | cons c t =>
      right
      have h1 := congrArg List.head? hmap
      have h2 := congrArg List.getLast? hmap
      rw [List.getLast?_map, List.getLast?_map,
        List.getLast?_eq_getLast (a :: l) (by simp),
        List.getLast?_eq_getLast (c :: t) (by simp)] at h2
      refine ⟨a, (a :: l).getLast (by simp), c, (c :: t).getLast (by simp), rfl,
        List.getLast?_eq_getLast _ _, rfl, List.getLast?_eq_getLast _ _, ?_, ?_⟩
      · simpa using h1
      · simpa using h2

theorem page_agree (sl : ServiceList) (st : ServiceTodo) (lists : List ListOutput)
    (todos : List TodoOutput) (hids : lists.map (·.ID) = todos.map (·.ID))
    (hst : sl.pageInfo = st.pageInfo) (totalCount first startPos : Int) :
    samePagination lists todos (GetLists.page sl lists totalCount first startPos)
      (GetTodosFromList.page st todos totalCount first startPos) := by
  have hlen : lists.length = todos.length := by
    have := congrArg List.length hids
    simpa using this
  unfold GetLists.page GetTodosFromList.page sliceOf
  simp only [hlen]
  generalize (if startPos + first > totalCount then totalCount else startPos + first) = e
  by_cases hb : 0 ≤ startPos ∧ startPos ≤ e ∧ e ≤ (todos.length : Int)
  · simp only [hb, and_self, if_true]
    have hmap : ((lists.take e.toNat).drop startPos.toNat).map (·.ID) =
        ((todos.take e.toNat).drop startPos.toNat).map (·.ID) := by
      rw [List.map_drop, List.map_take, List.map_drop, List.map_take, hids]
    rcases ends_agree _ _ hmap with ⟨h1, h2⟩ | ⟨a, b, c, d, ha, hb2, hc, hd, hac, hbd⟩
    · simp only [h1, h2, List.head?_nil, List.getLast?_nil]
      simpa [samePagination] using hst
    · simp only [ha, hb2, hc, hd, hac, hbd, samePagination]
      exact ⟨trivial, trivial, trivial, startPos.toNat, e.toNat, rfl, rfl⟩
  · simp only [hb, if_false]
    simpa [samePagination] using hst

/-- Claim C17: on sequences with the same IDs, with the same `first`, the same `after` and the
same stored page info, `GetLists` and `GetTodosFromList` either both return a page, with the
same index range, the same cursors, `hasNextPage` and total count, or both return the error
of the same kind, or both panic, and they leave the same stored page info. -/
theorem todos_paginate_like_lists (sl : ServiceList) (st : ServiceTodo)
    (lists : List ListOutput) (todos : List TodoOutput) (first : Option Int)
    (after : Option String) (hids : lists.map (·.ID) = todos.map (·.ID))
    (hst : sl.pageInfo = st.pageInfo) :
    samePagination lists todos (GetLists sl lists first after)
      (GetTodosFromList st todos first after) := by
  have hlen : lists.length = todos.length := by
    have := congrArg List.length hids
    simpa using this
  have hpos : ∀ c, (∃ p : Nat, GetListPosition c lists = .ok (p : Int) ∧
        GetTodoPosition c todos = .ok (p : Int)) ∨
      (GetListPosition c lists = .error "list not found" ∧
        GetTodoPosition c todos = .error "todo not found") := by
    intro c
    unfold GetListPosition GetTodoPosition
    rw [position_loop_agree c lists todos hids 0]
    cases GetTodoPosition.loop c todos 0 with
    | none => right; exact ⟨rfl, rfl⟩
    | some p => left; exact ⟨p, rfl, rfl⟩
  unfold GetLists GetTodosFromList
  rw [hlen, hst]
  generalize toInt32 (todos.length : Int) = total
  cases hfa : (first.isNone && after.isNone) with
  | true =>
    simp only [if_true, samePagination]
    refine ⟨trivial, trivial, trivial, 0, todos.length, ?_, ?_⟩
    · rw [← hlen, List.take_length, List.drop_zero]
    · rw [List.take_length, List.drop_zero]
  | false =>
    simp only [Bool.false_eq_true, if_false]
    generalize (match after with | some a => some a | none => st.pageInfo.EndCursor) = cursor
    cases cursor with
    | none => exact page_agree sl st lists todos hids hst _ _ _
    | some c =>
      simp only
      rcases hpos c with ⟨p, h1, h2⟩ | ⟨h1, h2⟩
      · rw [h1, h2]
        simp only
        cases Classical.em ((p : Int) = total - 1) with
        | inl hp =>
          rw [if_pos hp, if_pos hp]
          simp only [samePagination]
          exact ⟨trivial, Or.inr ⟨trivial, trivial⟩⟩
        | inr hp =>
          rw [if_neg hp, if_neg hp]
          exact page_agree sl st lists todos hids hst _ _ _
      · rw [h1, h2]
        simp only [samePagination]
        exact ⟨trivial, Or.inl ⟨trivial, trivial⟩⟩

/-! ## Role check of the resolvers and user middleware of the gateway -/

theorem valueAsString_none (ctx : GraphUtils.Context) (key : String)
    (h : ctx.lookup key = none) : GraphUtils.valueAsString ctx key = ("", false) := by
  simp [GraphUtils.valueAsString, h]

theorem valueAsString_some (ctx : GraphUtils.Context) (key v : String)
    (h : ctx.lookup key = some v) : GraphUtils.valueAsString ctx key = (v, true) := by
  simp [GraphUtils.valueAsString, h]

/-- Claim C18: `ValidatePermission ctx level` returns no error exactly when the context holds a
non-empty role that satisfies `level` under `CheckIfUserHasPermission`; it returns
`providing role is required` when the role is absent or empty and an error naming the role
and the level otherwise; each of the three directives returns what the next resolver returns
when `ValidatePermission` succeeds for its level, and the error with a nil result, without
calling the next resolver, otherwise. -/
theorem ValidatePermission_and_directives (ctx : GraphUtils.Context) (level : String) :
    (GraphUtils.ValidatePermission ctx level = none ↔
      ∃ role, ctx.lookup GraphUtils.Role = some role ∧ role ≠ "" ∧
        GraphUtils.CheckIfUserHasPermission role level = true) ∧
    ((ctx.lookup GraphUtils.Role = none ∨ ctx.lookup GraphUtils.Role = some "") →
      GraphUtils.ValidatePermission ctx level = some "providing role is required") ∧
    (∀ role, ctx.lookup GraphUtils.Role = some role → role ≠ "" →
      GraphUtils.CheckIfUserHasPermission role level = false →
      GraphUtils.ValidatePermission ctx level =
        some ("user is " ++ role ++ " and does not have " ++ level ++ " permission")) ∧
    (∀ (α : Type) (next : GraphResolver.Resolver α),
      (GraphUtils.ValidatePermission ctx GraphUtils.Admin = none →
        GraphResolver.HasAdminPermissionDirective ctx next = next ctx) ∧
      (∀ err, GraphUtils.ValidatePermission ctx GraphUtils.Admin = some err →
        GraphResolver.HasAdminPermissionDirective ctx next = (none, some err)) ∧
      (GraphUtils.ValidatePermission ctx GraphUtils.Writer = none →
        GraphResolver.HasWriterPermissionDirective ctx next = next ctx) ∧
      (∀ err, GraphUtils.ValidatePermission ctx GraphUtils.Writer = some err →
        GraphResolver.HasWriterPermissionDirective ctx next = (none, some err)) ∧
      (GraphUtils.ValidatePermission ctx GraphUtils.Reader = none →
        GraphResolver.HasReaderPermissionDirective ctx next = next ctx) ∧
      (∀ err, GraphUtils.ValidatePermission ctx GraphUtils.Reader = some err →
        GraphResolver.HasReaderPermissionDirective ctx next = (none, some err))) := by
  refine ⟨?_, ?_, ?_, ?_⟩
  · unfold GraphUtils.ValidatePermission
    cases h : ctx.lookup GraphUtils.Role with
    | none => simp [valueAsString_none ctx _ h]
    | some role =>
      rw [valueAsString_some ctx _ role h]
      by_cases hr : role = ""
      · simp [hr]
      · cases hc : GraphUtils.CheckIfUserHasPermission role level <;> simp [hr, hc]
  · intro h
    unfold GraphUtils.ValidatePermission
    rcases h with h | h
    · simp [valueAsString_none ctx _ h, GraphUtils.emptyRoleErrorMsg]
    · simp [valueAsString_some ctx _ _ h, GraphUtils.emptyRoleErrorMsg]
  · intro role h hr hc
    unfold GraphUtils.ValidatePermission
    rw [valueAsString_some ctx _ role h]
    simp [hr, hc, GraphUtils.userDoesNotHavePermission]
  · intro α next
    refine ⟨?_, ?_, ?_, ?_, ?_, ?_⟩
    · intro h; simp [GraphResolver.HasAdminPermissionDirective, h]
    · intro err h; simp [GraphResolver.HasAdminPermissionDirective, h]
    · intro h; simp [GraphResolver.HasWriterPermissionDirective, h]
    · intro err h; simp [GraphResolver.HasWriterPermissionDirective, h]
    · intro h; simp [GraphResolver.HasReaderPermissionDirective, h]
    · intro err h; simp [GraphResolver.HasReaderPermissionDirective, h]

/-- Claim C19: when the user name of the header is missing or empty or resolves to the role
unknown, `SetUserInformationToContext` does not call the next handler and the body it writes
is `missing valuable information about the user`; otherwise it calls the next handler on the
request whose context carries the user name of the header and the role `GetUserRole` gives,
and does nothing else. -/
theorem SetUserInformationToContext_gate (next : GraphApi.Handler)
    (w : GraphApi.ResponseWriter) (r : Api.Request) :
    ((r.headerGet GraphUtils.Username = "" ∨
        GraphUtils.GetUserRole (r.headerGet GraphUtils.Username) = GraphUtils.Unknown) →
      GraphApi.nextInvoked (GraphApi.SetUserInformationToContext next w r) = false ∧
      (w.Write "missing valuable information about the user" = none →
        GraphApi.responseBody (GraphApi.SetUserInformationToContext next w r) =
          "missing valuable information about the user")) ∧
    (¬ (r.headerGet GraphUtils.Username = "" ∨
        GraphUtils.GetUserRole (r.headerGet GraphUtils.Username) = GraphUtils.Unknown) →
      ∃ r2 : Api.Request,
        GraphApi.SetUserInformationToContext next w r =
          GraphApi.Event.serveNext r2 :: next w r2 ∧
        r2.ctx.lookup GraphUtils.Username = some (r.headerGet GraphUtils.Username) ∧
        r2.ctx.lookup GraphUtils.Role =
          some (GraphUtils.GetUserRole (r.headerGet GraphUtils.Username)) ∧
        r2.header = r.header ∧ r2.method = r.method ∧ r2.path = r.path ∧
        r2.vars = r.vars) := by
  constructor
  · intro h
    have hc : (decide (r.headerGet GraphUtils.Username = "") ||
        decide (GraphUtils.GetUserRole (r.headerGet GraphUtils.Username) =
          GraphUtils.Unknown)) = true := by
      simpa using h
    unfold GraphApi.SetUserInformationToContext
    simp only [hc, if_true]
    constructor
    · cases w.Write "missing valuable information about the user" <;>
        simp [GraphApi.nextInvoked]
    · intro hw
      simp [hw, GraphApi.responseBody]
  · intro h
    have hc : (decide (r.headerGet GraphUtils.Username = "") ||
        decide (GraphUtils.GetUserRole (r.headerGet GraphUtils.Username) =
          GraphUtils.Unknown)) = false := by
      simpa using h
    unfold GraphApi.SetUserInformationToContext
    simp only [hc, Bool.false_eq_true, if_false]
    refine ⟨_, rfl, ?_, ?_, rfl, rfl, rfl, rfl⟩
    · have hne : (GraphUtils.Username == GraphUtils.Role) = false := by decide
      simp [Api.Request.withValue, List.lookup, hne]
    · simp [Api.Request.withValue, List.lookup]

/-- Claim C20, the code at a failing input: for the unlisted user `TestUser` the middleware
writes the body before it calls `WriteHeader`, so the response goes out with status 200; the
only status it asks for is 400, which comes too late, and the status is not 401. -/
theorem gateway_unknown_principal_not_401 :
    GraphUtils.users.lookup
      ((Sample.request "POST" "TestUser" Sample.lid).headerGet GraphUtils.Username) = none ∧
    GraphApi.effectiveStatus (GraphApi.SetUserInformationToContext GraphApi.idle
      Sample.writer (Sample.request "POST" "TestUser" Sample.lid)) = some 200 ∧
    GraphApi.requestedStatuses (GraphApi.SetUserInformationToContext GraphApi.idle
      Sample.writer (Sample.request "POST" "TestUser" Sample.lid)) = [400] ∧
    GraphApi.effectiveStatus (GraphApi.SetUserInformationToContext GraphApi.idle
      Sample.writer (Sample.request "POST" "TestUser" Sample.lid)) ≠ some 401 := by
  decide

/-! ## Instances of the properties above -/

/-- Claim C11 at the items `a, b, c`, the cursor `a` and `first = 1`: the page `[b]` with both
cursors `b` and `hasNextPage = true`. -/
theorem page_after_cursor_witness :
    ([Sample.listA, Sample.listB, Sample.listC].map (·.ID)).Nodup ∧
    (GetLists NewServiceList [Sample.listA, Sample.listB, Sample.listC] (some 1)
        (some "a")).2 =
      .ok { TotalCount := 3
            Lists := [Sample.listB]
            PageInfo :=
              { StartCursor := some "b", EndCursor := some "b", HasNextPage := true } } :=
  ⟨by decide,
   (page_after_cursor NewServiceList [Sample.listA, Sample.listB, Sample.listC] (by decide)
      (by decide) 0 (by decide)).1 1 (by decide)⟩

/-- Claim C12 at the items `a, b, c` and no todos, on services that have served a page. -/
theorem whole_sequence_without_arguments_witness :
    [Sample.listA, Sample.listB, Sample.listC].length < 2 ^ 31 ∧
    (GetLists { pageInfo := { StartCursor := some "a", EndCursor := some "b",
                              HasNextPage := true } }
        [Sample.listA, Sample.listB, Sample.listC] none none).2 =
      .ok { TotalCount := 3
            Lists := [Sample.listA, Sample.listB, Sample.listC]
            PageInfo := { StartCursor := none, EndCursor := none, HasNextPage := false } } :=
  ⟨by decide,
   (whole_sequence_without_arguments
      { pageInfo := { StartCursor := some "a", EndCursor := some "b", HasNextPage := true } }
      NewServiceTodo [Sample.listA, Sample.listB, Sample.listC] [] (by decide)
      (by decide)).1⟩

/-- Claim C13 at the items `a, b, c`, the cursor `c` and `first = 5`. -/
theorem cursor_at_last_item_witness :
    [Sample.listA, Sample.listB, Sample.listC] ≠ [] ∧
    ([Sample.listA, Sample.listB, Sample.listC].map (·.ID)).Nodup ∧
    GetLists NewServiceList [Sample.listA, Sample.listB, Sample.listC] (some 5) (some "c") =
      ({ pageInfo := PageInfo.zero }, .err "lists is out of range") :=
  ⟨by decide, by decide,
   (cursor_at_last_item NewServiceList NewServiceTodo (some 5)
      [Sample.listA, Sample.listB, Sample.listC] [Sample.todo "a"] (by decide) (by decide)
      (by decide) (by decide) (by decide) (by decide)).1⟩

/-- Claim C14 at the items `a, b, c` and the cursor `z`, which is the ID of none of them. -/
theorem cursor_lookup_witness :
    (∀ x ∈ [Sample.listA, Sample.listB, Sample.listC], x.ID ≠ "z") ∧
    GetLists NewServiceList [Sample.listA, Sample.listB, Sample.listC] (some 2) (some "z") =
      ({ pageInfo := PageInfo.zero }, .err "list not found") :=
  ⟨by decide,
   (cursor_lookup "z" [Sample.listA, Sample.listB, Sample.listC] []).1 (by decide)
      NewServiceList (some 2)⟩

/-- Claim C17 at three lists and three todos with the IDs `a, b, c`, `first = 2`, no cursor,
on fresh services. -/
theorem todos_paginate_like_lists_witness :
    [Sample.listA, Sample.listB, Sample.listC].map (·.ID) =
      [Sample.todo "a", Sample.todo "b", Sample.todo "c"].map (·.ID) ∧
    NewServiceList.pageInfo = NewServiceTodo.pageInfo ∧
    samePagination [Sample.listA, Sample.listB, Sample.listC]
      [Sample.todo "a", Sample.todo "b", Sample.todo "c"]
      (GetLists NewServiceList [Sample.listA, Sample.listB, Sample.listC] (some 2) none)
      (GetTodosFromList NewServiceTodo [Sample.todo "a", Sample.todo "b", Sample.todo "c"]
        (some 2) none) :=
  ⟨by decide, rfl,
   todos_paginate_like_lists NewServiceList NewServiceTodo
      [Sample.listA, Sample.listB, Sample.listC]
      [Sample.todo "a", Sample.todo "b", Sample.todo "c"] (some 2) none (by decide) rfl⟩

/-- Claim C18 at a context with the role reader and the level writer: the error names both. -/
theorem ValidatePermission_and_directives_witness :
    [("role", "reader")].lookup GraphUtils.Role = some "reader" ∧
    GraphUtils.CheckIfUserHasPermission "reader" "writer" = false ∧
    GraphUtils.ValidatePermission [("role", "reader")] "writer" =
      some ("user is " ++ "reader" ++ " and does not have " ++ "writer" ++ " permission") :=
  ⟨by decide, by decide,
   (ValidatePermission_and_directives [("role", "reader")] "writer").2.2.1 "reader"
      (by decide) (by decide) (by decide)⟩

/-- Claim C19 at a request without user name: the next handler is not called and the body is
the message. -/
theorem SetUserInformationToContext_gate_witness :
    (Sample.request "POST" "" Sample.lid).headerGet GraphUtils.Username = "" ∧
    GraphApi.nextInvoked (GraphApi.SetUserInformationToContext GraphApi.idle Sample.writer
      (Sample.request "POST" "" Sample.lid)) = false ∧
    GraphApi.responseBody (GraphApi.SetUserInformationToContext GraphApi.idle Sample.writer
      (Sample.request "POST" "" Sample.lid)) = "missing valuable information about the user" :=
  ⟨by decide,
   ((SetUserInformationToContext_gate GraphApi.idle Sample.writer
      (Sample.request "POST" "" Sample.lid)).1 (Or.inl (by decide))).1,
   ((SetUserInformationToContext_gate GraphApi.idle Sample.writer
      (Sample.request "POST" "" Sample.lid)).1 (Or.inl (by decide))).2 rfl⟩

/-! ## List service, status progression, resolver lookups, directories and update merge -/

/-- Claim C21: the model `CreateList` builds has the creator as owner and as a member, the one
membership entity it hands to the repository names the owner, the ID of the list and
`IsOwner = true`, and the membership entity `AddUserToList` hands to the repository has
`IsOwner = false`. -/
theorem list_owner_membership (repo : ListService.RepositoryList) (newId listId : UUID)
    (listName username user : String) :
    (ListService.CreateList.listModel newId listName username).Owner = username ∧
    (ListService.CreateList.listModel newId listName username).Owner ∈
      (ListService.CreateList.listModel newId listName username).Users ∧
    (ListService.CreateList repo newId listName username).1 =
      [ListService.RepoCall.createList
        { Id := (ListService.CreateList.listModel newId listName username).Id,
          Name := listName, CreatedAt := Structures.Time.zero }
        { ListId := (ListService.CreateList.listModel newId listName username).Id,
          Username := (ListService.CreateList.listModel newId listName username).Owner,
          IsOwner := true }] ∧
    (ListService.AddUserToList repo listId user).1 =
      [ListService.RepoCall.addUserToList
        { ListId := listId, Username := user, IsOwner := false }] := by
  refine ⟨rfl, ?_, ?_, rfl⟩
  · simp [ListService.CreateList.listModel]
  · unfold ListService.CreateList
    simp only [ListService.ConvertListModelToEntities, ListService.CreateList.listModel]
    cases repo.CreateList _ _ <;> rfl

/-- Claim C24: `NextStatus` maps Not Assigned to Assigned, Assigned to In Progress, In Progress
to In Review, In Review to Completed, Completed to Completed and every other text to
Undefined; Not Assigned does not go to In Progress directly, and iterating from Not Assigned
reaches Completed after four steps, not earlier, and stays there. -/
theorem NextStatus_progression :
    NextStatus "Not Assigned" = "Assigned" ∧
    NextStatus "Assigned" = "In Progress" ∧
    NextStatus "In Progress" = "In Review" ∧
    NextStatus "In Review" = "Completed" ∧
    NextStatus "Completed" = "Completed" ∧
    (∀ s : String, s ≠ "Not Assigned" → s ≠ "Assigned" → s ≠ "In Progress" →
      s ≠ "In Review" → s ≠ "Completed" → NextStatus s = "Undefined") ∧
    NextStatus "Not Assigned" ≠ "In Progress" ∧
    Nat.iterate NextStatus 4 "Not Assigned" = "Completed" ∧
    (∀ n : Nat, n < 4 → Nat.iterate NextStatus n "Not Assigned" ≠ "Completed") ∧
    (∀ n : Nat, Nat.iterate NextStatus (4 + n) "Not Assigned" = "Completed") := by
  refine ⟨by decide, by decide, by decide, by decide, by decide, ?_, by decide, by decide,
    ?_, ?_⟩
  · intro s h1 h2 h3 h4 h5
    simp [NextStatus, NotAssigned, Assigned, InProgress, InReview, Completed, Undefined,
      h1, h2, h3, h4, h5]
  · intro n hn
    interval_cases n <;> decide
  · intro n
    induction n with
    | zero => decide
    | succ k ih =>
      rw [← Nat.add_assoc, Function.iterate_succ_apply', ih]
      decide

/-- Claim C24 at the text `Done`, which is none of the five statuses. -/
theorem NextStatus_progression_witness :
    ("Done" : String) ≠ "Completed" ∧ NextStatus "Done" = "Undefined" :=
  ⟨by decide,
   NextStatus_progression.2.2.2.2.2.1 "Done" (by decide) (by decide) (by decide) (by decide)
      (by decide)⟩

/-- Claim C27: `IsOwnerUserOwnerToListById` is false whenever the membership lookup returns an
error and is the `IsOwner` flag of the membership found otherwise, for the lookup of the
service and for the lookup of the repository behind `ServiceListImpl`. -/
theorem IsOwnerUserOwnerToListById_fails_closed (service : ListResolver.ServiceList)
    (repo : ListService.RepositoryList) (listId : UUID) (username : String) :
    (∀ err, service.GetUserFromListById listId username = .error err →
      ListResolver.IsOwnerUserOwnerToListById service listId username = false) ∧
    (∀ entity, service.GetUserFromListById listId username = .ok entity →
      ListResolver.IsOwnerUserOwnerToListById service listId username = entity.IsOwner) ∧
    (service.GetUserFromListById = ListService.GetUserFromListById repo →
      (∀ err, repo.GetUserFromListById listId username = .error err →
        ListResolver.IsOwnerUserOwnerToListById service listId username = false) ∧
      (∀ userModel, repo.GetUserFromListById listId username = .ok userModel →
        ListResolver.IsOwnerUserOwnerToListById service listId username =
          userModel.IsOwner)) := by
  refine ⟨?_, ?_, ?_⟩
  · intro err h
    simp [ListResolver.IsOwnerUserOwnerToListById, h]
  · intro entity h
    simp [ListResolver.IsOwnerUserOwnerToListById, h]
  · intro hs
    constructor
    · intro err h
      simp [ListResolver.IsOwnerUserOwnerToListById, hs, ListService.GetUserFromListById, h]
    · intro userModel h
      simp [ListResolver.IsOwnerUserOwnerToListById, hs, ListService.GetUserFromListById, h,
        ListService.ConvertUserModelToUserOutput]

/-- Claim C27 at a service whose lookup fails: the answer is false. -/
theorem IsOwnerUserOwnerToListById_fails_closed_witness :
    (Sample.failingListService "error getting user").GetUserFromListById Sample.uid "Ivan" =
      .error "error getting user" ∧
    ListResolver.IsOwnerUserOwnerToListById (Sample.failingListService "error getting user")
      Sample.uid "Ivan" = false :=
  ⟨rfl,
   (IsOwnerUserOwnerToListById_fails_closed (Sample.failingListService "error getting user")
      Sample.listRepository Sample.uid "Ivan").1 "error getting user" rfl⟩

theorem GetUserRole_rank (name : String) :
    GraphUtils.RoleType.lookup (GraphUtils.GetUserRole name) = some (GetUsersRights name) := by
  by_cases h1 : name = "Niki"
  · subst h1; decide
  by_cases h2 : name = "Ivan"
  · subst h2; decide
  by_cases h3 : name = "Miro"
  · subst h3; decide
  by_cases h4 : name = "Yosif"
  · subst h4; decide
  have e1 : (name == "Niki") = false := by simpa using h1
  have e2 : (name == "Ivan") = false := by simpa using h2
  have e3 : (name == "Miro") = false := by simpa using h3
  have e4 : (name == "Yosif") = false := by simpa using h4
  have hg : GraphUtils.GetUserRole name = GraphUtils.Unknown := by
    simp only [GraphUtils.GetUserRole, GraphUtils.users, List.lookup, e1, e2, e3, e4]
  have hr : GetUsersRights name = -1 := by
    simp only [GetUsersRights, users, List.lookup, e1, e2, e3, e4]
  rw [hg, hr]
  decide

theorem users_lookup_none_iff (name : String) :
    users.lookup name = none ↔ GraphUtils.users.lookup name = none := by
  by_cases h1 : name = "Niki"
  · subst h1; decide
  by_cases h2 : name = "Ivan"
  · subst h2; decide
  by_cases h3 : name = "Miro"
  · subst h3; decide
  by_cases h4 : name = "Yosif"
  · subst h4; decide
  have e1 : (name == "Niki") = false := by simpa using h1
  have e2 : (name == "Ivan") = false := by simpa using h2
  have e3 : (name == "Miro") = false := by simpa using h3
  have e4 : (name == "Yosif") = false := by simpa using h4
  simp only [users, GraphUtils.users, List.lookup, e1, e2, e3, e4]

/-- Claim C29: the rank tables `Role` and `RoleType` give every role name the same rank, and
for every user name the rank `GetUsersRights` returns is the rank `RoleType` gives to the
role name `GetUserRole` returns; the two directories list the same names, and an unlisted name
gets -1 and `unknown`. -/
theorem directories_agree :
    (∀ k : String, Role.lookup k = GraphUtils.RoleType.lookup k) ∧
    (∀ name : String,
      GraphUtils.RoleType.lookup (GraphUtils.GetUserRole name) =
        some (GetUsersRights name)) ∧
    (∀ name : String, users.lookup name = none ↔ GraphUtils.users.lookup name = none) ∧
    (∀ name : String, users.lookup name = none →
      GetUsersRights name = -1 ∧ GraphUtils.GetUserRole name = "unknown") := by
  refine ⟨?_, GetUserRole_rank, users_lookup_none_iff, ?_⟩
  · intro k
    have : Role = GraphUtils.RoleType := by decide
    rw [this]
  · intro name h
    refine ⟨GetUsersRights_unlisted name h, ?_⟩
    have hg := (users_lookup_none_iff name).mp h
    simp [GraphUtils.GetUserRole, hg, GraphUtils.Unknown]

/-- Claim C29 at the unlisted name `TestUser`. -/
theorem directories_agree_witness :
    users.lookup "TestUser" = none ∧
    GetUsersRights "TestUser" = -1 ∧ GraphUtils.GetUserRole "TestUser" = "unknown" :=
  ⟨by decide, directories_agree.2.2.2 "TestUser" (by decide)⟩

/-- Claim C30: the merge `validate` takes the name, description and deadline of the update
where they are non-empty (non-zero) and keeps the stored ones otherwise, takes the priority of
the update unless that is empty or `Undefined`, and leaves the ID, list ID, creation date,
assignee and status of the stored entity as they are; an update with all four fields empty
leaves the entity unchanged. -/
theorem validate_partial_update (o u : Structures.TodoEntity) :
    (u.Name ≠ "" → (TodoRepository.validate o u).Name = u.Name) ∧
    (u.Name = "" → (TodoRepository.validate o u).Name = o.Name) ∧
    (u.Description ≠ "" → (TodoRepository.validate o u).Description = u.Description) ∧
    (u.Description = "" → (TodoRepository.validate o u).Description = o.Description) ∧
    (u.Deadline ≠ Structures.Time.zero →
      (TodoRepository.validate o u).Deadline = u.Deadline) ∧
    (u.Deadline = Structures.Time.zero →
      (TodoRepository.validate o u).Deadline = o.Deadline) ∧
    (u.Priority ≠ "" → u.Priority ≠ "Undefined" →
      (TodoRepository.validate o u).Priority = u.Priority) ∧
    (u.Priority = "" ∨ u.Priority = "Undefined" →
      (TodoRepository.validate o u).Priority = o.Priority) ∧
    (TodoRepository.validate o u).Id = o.Id ∧
    (TodoRepository.validate o u).ListId = o.ListId ∧
    (TodoRepository.validate o u).CreationDate = o.CreationDate ∧
    (TodoRepository.validate o u).Assignee = o.Assignee ∧
    (TodoRepository.validate o u).Status = o.Status ∧
    (u.Name = "" → u.Description = "" → u.Deadline = Structures.Time.zero →
      u.Priority = "" → TodoRepository.validate o u = o) := by
  unfold TodoRepository.validate
  simp only [Undefined]
  by_cases hn : u.Name = "" <;> by_cases hd : u.Description = "" <;>
    by_cases ht : u.Deadline = Structures.Time.zero <;>
    by_cases hp : u.Priority = "" <;> by_cases hq : u.Priority = "Undefined" <;>
    simp [hn, hd, ht, hp, hq]

/-- Claim C30 at a stored todo and an update that sets the name only. -/
theorem validate_partial_update_witness :
    Sample.renameTodo.Name ≠ "" ∧
    (TodoRepository.validate Sample.storedTodo Sample.renameTodo).Name =
      Sample.renameTodo.Name :=
  ⟨by decide, (validate_partial_update Sample.storedTodo Sample.renameTodo).1 (by decide)⟩

/-! ## Handlers of the todo routes -/

/-- Claim C23, the code at a failing input: a decoded input with name, description and
deadline but without priority passes `validateTodo`, and `CreateTodo` calls the service with
it and answers 201 instead of 400. -/
theorem CreateTodo_accepts_missing_priority :
    Sample.inputWithoutPriority.Priority = "" ∧
    TodoResolver.validateTodo Sample.inputWithoutPriority = true ∧
    Handlers.serviceCalls (TodoResolver.CreateTodo Sample.lib2 (Sample.todoService "")
        (Sample.todoRequest "POST" (some "Ivan")) (some Sample.inputWithoutPriority)) =
      [Handlers.Call.CreateTodo Sample.inputWithoutPriority Sample.uid] ∧
    Handlers.responseStatus (TodoResolver.CreateTodo Sample.lib2 (Sample.todoService "")
        (Sample.todoRequest "POST" (some "Ivan")) (some Sample.inputWithoutPriority)) =
      some 201 := by
  decide

/-! ## Log entries of the permission middleware -/

/-- Claim C26, the code at a failing input: for the writer Yosif, who is no member of the
list, `CheckForUserExistenceInList` writes the 403 response without any log entry, while
`CheckForReaderPermissions` on the same request logs the status first. -/
theorem CheckForUserExistenceInList_forbidden_without_log :
    Sample.amw.CheckForUserExistenceInList idle (Sample.request "GET" "Yosif" Sample.lid) =
      [Event.isUserPartOfList Sample.uid "Yosif", Event.httpError "Forbidden" 403] ∧
    Sample.amw.CheckForReaderPermissions idle (Sample.request "GET" "Yosif" Sample.lid) =
      [Event.isUserPartOfList Sample.uid "Yosif",
       Event.warn 403 ("Yosif is not authorized as reader in list: " ++ Sample.lid),
       Event.httpError "Forbidden" 403] := by
  decide

/-! ## The end cursor stored on the service -/

theorem GetLists_page_not_err (sl : ServiceList) (lists : List ListOutput)
    (totalCount first startPos : Int) (msg : String) :
    (GetLists.page sl lists totalCount first startPos).2 ≠ .err msg := by
  unfold GetLists.page
  simp only
  split
  · simp
  · split <;> simp

theorem GetLists_explicit_after (sl1 sl2 : ServiceList) (lists : List ListOutput)
    (first : Option Int) (a : String) :
    (GetLists sl1 lists first (some a)).2 = (GetLists sl2 lists first (some a)).2 := by
  unfold GetLists
  generalize toInt32 (lists.length : Int) = total
  simp only [Option.isNone_some, Bool.and_false, Bool.false_eq_true, if_false]
  split
  · rfl
  · split
    · rfl
    · exact GetLists_page_result _ _ _ _ _ _

theorem GetLists_page_cases (sl : ServiceList) (lists : List ListOutput)
    (totalCount first startPos : Int) :
    GetLists.page sl lists totalCount first startPos = (sl, .panic) ∨
    ∃ s c, GetLists.page sl lists totalCount first startPos = (s, .ok c) := by
  unfold GetLists.page
  simp only
  split
  · exact Or.inl rfl
  · split
    · exact Or.inr ⟨_, _, rfl⟩
    · exact Or.inl rfl

theorem GetLists_page_panic_state (sl : ServiceList) (lists : List ListOutput)
    (totalCount first startPos : Int)
    (h : (GetLists.page sl lists totalCount first startPos).2 = .panic) :
    (GetLists.page sl lists totalCount first startPos).1 = sl := by
  rcases GetLists_page_cases sl lists totalCount first startPos with h0 | ⟨s, c, h1⟩
  · rw [h0]
  · rw [h1] at h
    exact absurd h (by simp)

/-- Claim C28, refuted as stated: a call of `GetLists` that fails because the request to the
backend fails returns the error and keeps the stored end cursor `b`, so the next call with
`first = 2` and without `after` returns `[c]` and not the page `[a, b]` at index 0. -/
theorem failed_request_keeps_end_cursor :
    (GetLists NewServiceList [Sample.listA, Sample.listB, Sample.listC]
      (some 2) none).1.pageInfo.EndCursor = some "b" ∧
    ((GetLists NewServiceList [Sample.listA, Sample.listB, Sample.listC] (some 2) none).1.GetLists
      (.error "connection refused") (some 2) none).2 = .err "connection refused" ∧
    ((GetLists NewServiceList [Sample.listA, Sample.listB, Sample.listC] (some 2) none).1.GetLists
      (.error "connection refused") (some 2) none).1.pageInfo.EndCursor = some "b" ∧
    (((GetLists NewServiceList [Sample.listA, Sample.listB, Sample.listC]
        (some 2) none).1.GetLists (.error "connection refused") (some 2) none).1.GetLists
      (.ok [Sample.listA, Sample.listB, Sample.listC]) (some 2) none).2 =
      .ok { TotalCount := 3, Lists := [Sample.listC],
            PageInfo := { StartCursor := some "c", EndCursor := some "c",
                          HasNextPage := false } } ∧
    (NewServiceList.GetLists (.ok [Sample.listA, Sample.listB, Sample.listC])
      (some 2) none).2 =
      .ok { TotalCount := 3, Lists := [Sample.listA, Sample.listB],
            PageInfo := { StartCursor := some "a", EndCursor := some "b",
                          HasNextPage := true } } := by
  decide

/-- Claim C28, amended: `GetLists` keeps the end cursor of the last page on the service: with
`first` present and `after` absent a call made while the end cursor `c` is stored is the same
call with `after = c`; an explicit `after` decides the result whatever is stored; a call that
fails with a cursor error and a call with neither `first` nor `after` reset the stored page
info, and with no end cursor stored a call without `after` reads from index 0, as on a fresh
service; a call that fails because the request to the backend or the conversion of its
answer fails, and a call that panics, leave the stored page info as it is. -/
theorem stored_end_cursor (lists : List ListOutput) (first : Option Int) (k : Int) :
    (∀ (sl : ServiceList) (c : String), sl.pageInfo.EndCursor = some c →
      sl.GetLists (.ok lists) (some k) none = sl.GetLists (.ok lists) (some k) (some c)) ∧
    (∀ (sl1 sl2 : ServiceList) (a : String),
      (sl1.GetLists (.ok lists) first (some a)).2 =
        (sl2.GetLists (.ok lists) first (some a)).2) ∧
    (∀ (sl : ServiceList) (after : Option String) (msg : String),
      (sl.GetLists (.ok lists) first after).2 = .err msg →
      (sl.GetLists (.ok lists) first after).1.pageInfo = PageInfo.zero) ∧
    (∀ sl : ServiceList, (sl.GetLists (.ok lists) none none).1.pageInfo = PageInfo.zero) ∧
    (∀ sl : ServiceList, sl.pageInfo.EndCursor = none →
      sl.GetLists (.ok lists) (some k) none =
        GetLists.page sl lists (toInt32 lists.length) k 0 ∧
      (sl.GetLists (.ok lists) (some k) none).2 =
        (NewServiceList.GetLists (.ok lists) (some k) none).2) ∧
    (∀ (sl : ServiceList) (after : Option String) (err : String),
      sl.GetLists (.error err) first after = (sl, .err err)) ∧
    (∀ (sl : ServiceList) (after : Option String),
      (sl.GetLists (.ok lists) first after).2 = .panic →
      (sl.GetLists (.ok lists) first after).1 = sl) := by
  simp only [ServiceList.GetLists]
  refine ⟨?_, ?_, ?_, ?_, ?_, ?_, ?_⟩
  · intro sl c hc
    unfold GetLists
    generalize toInt32 (lists.length : Int) = total
    simp only [hc, Option.isNone_some, Option.isNone_none, Bool.and_false, Bool.false_and,
      Bool.false_eq_true, if_false]
  · intro sl1 sl2 a
    exact GetLists_explicit_after sl1 sl2 lists first a
  · intro sl after msg h
    unfold GetLists at h ⊢
    generalize toInt32 (lists.length : Int) = total at h ⊢
    cases hfa : (first.isNone && after.isNone) with
    | true => simp only [hfa, if_true]
    | false =>
      simp only [hfa, Bool.false_eq_true, if_false] at h ⊢
      generalize (match after with | some a => some a | none => sl.pageInfo.EndCursor) = cursor
        at h ⊢
      cases cursor with
      | none =>
        simp only at h
        exact absurd h (GetLists_page_not_err _ _ _ _ _ _)
      | some c =>
        simp only at h ⊢
        cases hp : GetListPosition c lists with
        | error e => simp only [hp]
        | ok p =>
          simp only [hp] at h ⊢
          cases Classical.em (p = total - 1) with
          | inl he => rw [if_pos he]
          | inr hne =>
            rw [if_neg hne] at h
            exact absurd h (GetLists_page_not_err _ _ _ _ _ _)
  · intro sl
    unfold GetLists
    simp only [Option.isNone_none, Bool.and_self, if_true]
  · intro sl hs
    have h1 : GetLists sl lists (some k) none =
        GetLists.page sl lists (toInt32 lists.length) k 0 := by
      unfold GetLists
      generalize toInt32 (lists.length : Int) = total
      simp only [hs, Option.isNone_some, Bool.false_and, Bool.false_eq_true, if_false,
        Option.getD_some]
    refine ⟨h1, ?_⟩
    rw [h1, GetLists_fresh_no_cursor]
    exact GetLists_page_result _ _ _ _ _ _
  · intro sl after err
    trivial
  · intro sl after h
    unfold GetLists at h ⊢
    generalize toInt32 (lists.length : Int) = total at h ⊢
    cases hfa : (first.isNone && after.isNone) with
    | true =>
      simp only [hfa, if_true] at h
      exact absurd h (by simp)
    | false =>
      simp only [hfa, Bool.false_eq_true, if_false] at h ⊢
      generalize (match after with | some a => some a | none => sl.pageInfo.EndCursor) = cursor
        at h ⊢
      cases cursor with
      | none =>
        simp only at h ⊢
        exact GetLists_page_panic_state _ _ _ _ _ h
      | some c =>
        simp only at h ⊢
        cases hp : GetListPosition c lists with
        | error e =>
          simp only [hp] at h
          exact absurd h (by simp)
        | ok p =>
          simp only [hp] at h ⊢
          cases Classical.em (p = total - 1) with
          | inl he =>
            rw [if_pos he] at h
            exact absurd h (by simp)
          | inr hne =>
            rw [if_neg hne] at h ⊢
            exact GetLists_page_panic_state _ _ _ _ _ h

/-- Claim C28, amended, at the items `a, b, c`: after the page `[a, b]` the call `first = 2`
without `after` is the call with `after = b`. -/
theorem stored_end_cursor_witness :
    (GetLists NewServiceList [Sample.listA, Sample.listB, Sample.listC]
      (some 2) none).1.pageInfo.EndCursor = some "b" ∧
    (GetLists NewServiceList [Sample.listA, Sample.listB, Sample.listC] (some 2) none).1.GetLists
        (.ok [Sample.listA, Sample.listB, Sample.listC]) (some 2) none =
      (GetLists NewServiceList [Sample.listA, Sample.listB, Sample.listC] (some 2) none).1.GetLists
        (.ok [Sample.listA, Sample.listB, Sample.listC]) (some 2) (some "b") :=
  ⟨by decide,
   (stored_end_cursor [Sample.listA, Sample.listB, Sample.listC] (some 2) 2).1 _ "b"
      (by decide)⟩

/-! ## Service errors in the handlers -/

theorem errorResponse_nil (fallback err : String) :
    Handlers.errorResponse [] fallback err = (500, fallback) := rfl

theorem errorResponse_cons (m : String × Nat) (markers : List (String × Nat))
    (fallback err : String) :
    Handlers.errorResponse (m :: markers) fallback err =
      if strings_Contains err m.1 then (m.2, err)
      else Handlers.errorResponse markers fallback err := by
  unfold Handlers.errorResponse
  cases h : strings_Contains err m.1 <;> simp [List.find?, h]

theorem errorResponse_unrecognised (markers : List (String × Nat)) (fallback err : String)
    (h : ∀ m ∈ markers, strings_Contains err m.1 = false) :
    Handlers.errorResponse markers fallback err = (500, fallback) := by
  induction markers with
  | nil => rfl
  | cons m T ih =>
    rw [errorResponse_cons, h m (List.mem_cons_self _ _)]
    simp only [Bool.false_eq_true, if_false]
    exact ih (fun x hx => h x (List.mem_cons_of_mem _ hx))

theorem errorResponse_cases (markers : List (String × Nat)) (fallback err : String) :
    Handlers.errorResponse markers fallback err = (500, fallback) ∨
    ∃ m ∈ markers, strings_Contains err m.1 = true ∧
      Handlers.errorResponse markers fallback err = (m.2, err) := by
  induction markers with
  | nil => exact Or.inl rfl
  | cons m T ih =>
    rw [errorResponse_cons]
    cases h : strings_Contains err m.1 with
    | true =>
      refine Or.inr ⟨m, List.mem_cons_self _ _, h, ?_⟩
      simp only [if_true]
    | false =>
      simp only [Bool.false_eq_true, if_false]
      rcases ih with h0 | ⟨x, hx, hc, he⟩
      · exact Or.inl h0
      · exact Or.inr ⟨x, List.mem_cons_of_mem _ hx, hc, he⟩

/-- Claim C25: in every list and todo handler that receives an error from the service, for
every request that gets as far as the call of the service (the route variables the handler
reads are valid IDs, the body decodes), the answer is the one of the error policy
`errorResponse` at the markers the handler recognises: an error containing none of them is
answered with status 500 and a text made of request data only, the same for any two such
errors, and the text of the error is sent only with the status of a marker it contains (409
already exists, 404 not found or error getting, 400 failure of the operation). -/
theorem unrecognised_service_errors_are_masked (lib : UuidLib) (req : Api.Request) :
    (∀ (markers : List (String × Nat)) (fallback e1 e2 : String),
      (∀ m ∈ markers, strings_Contains e1 m.1 = false) →
      (∀ m ∈ markers, strings_Contains e2 m.1 = false) →
      Handlers.errorResponse markers fallback e1 = (500, fallback) ∧
      Handlers.errorResponse markers fallback e2 = (500, fallback)) ∧
    (∀ (markers : List (String × Nat)) (fallback e : String),
      Handlers.errorResponse markers fallback e = (500, fallback) ∨
      ∃ m ∈ markers, strings_Contains e m.1 = true ∧
        Handlers.errorResponse markers fallback e = (m.2, e)) ∧
    (∀ lid : UUID, GetID lib req.vars "listId" = .ok lid →
      ∀ (service : ListResolver.ServiceList) (e : String),
      service.GetListById lid = .error e →
      Handlers.answersWith (ListResolver.GetListById lib service req)
        (Handlers.errorResponse [(GetErrorMsg, 404)]
          ("error getting list with id: " ++ lib.String lid) e)) ∧
    (∀ (service : ListResolver.ServiceList) (input : Structures.ListInput) (e : String),
      service.CreateList input.Name (req.headerGet "userId") = .error e →
      Handlers.answersWith (ListResolver.CreateList lib service req (some input))
        (Handlers.errorResponse
          [(AlreadyExistsErrorMsg, 409), (CreateErrorMsg, 400), (NotFoundErrorMsg, 404)]
          ("failed to create list with name: " ++ input.Name) e)) ∧
    (∀ lid : UUID, GetID lib req.vars "listId" = .ok lid →
      ∀ (service : ListResolver.ServiceList) (e : String),
      service.DeleteList lid = .error e →
      Handlers.answersWith (ListResolver.DeleteList lib service req)
        (Handlers.errorResponse [(NotFoundErrorMsg, 404), (DeletingErrorMsg, 400)]
          ("failed to delete list with id: " ++ lib.String lid) e)) ∧
    (∀ lid : UUID, GetID lib req.vars "listId" = .ok lid →
      ∀ (service : ListResolver.ServiceList) (newVal : Structures.ListInput) (e : String),
      service.UpdateList lid newVal.Name = .error e →
      Handlers.answersWith (ListResolver.UpdateList lib service req (some newVal))
        (Handlers.errorResponse
          [(NotFoundErrorMsg, 404), (AlreadyExistsErrorMsg, 409), (UpdateErrorMsg, 400)]
          ("failed to decode new data for list with id: " ++ lib.String lid) e)) ∧
    (∀ lid : UUID, GetID lib req.vars "listId" = .ok lid →
      ∀ (service : ListResolver.ServiceList) (userInput : Structures.ListUserInput)
        (e : String), userInput.Username ≠ "" →
      service.AddUserToList lid userInput.Username = some e →
      Handlers.answersWith (ListResolver.AddUserToList lib service req (some userInput))
        (Handlers.errorResponse
          [(AlreadyExistsErrorMsg, 409), (NotFoundErrorMsg, 404),
           (ListResolver.addUserErrorMsg, 400)]
          ("failed to add user " ++ userInput.Username ++ " to list with id: "
            ++ lib.String lid) e)) ∧
    (∀ lid : UUID, GetID lib req.vars "listId" = .ok lid →
      ∀ (service : ListResolver.ServiceList) (e : String),
      service.RemoveUserFromList lid (mapIndex req.vars "userId") = .error e →
      Handlers.answersWith (ListResolver.RemoveUserFromList lib service req)
        (Handlers.errorResponse
          [(NotFoundErrorMsg, 404), (ListResolver.removeUserErrorMsg, 400)]
          ("failed to remove user " ++ mapIndex req.vars "userId" ++ " from list with id: "
            ++ lib.String lid) e)) ∧
    (∀ lid : UUID, GetID lib req.vars "listId" = .ok lid →
      ∀ (service : ListResolver.ServiceList) (e : String),
      mapIndex req.vars "userId" ≠ "" →
      service.GetUserFromListById lid (mapIndex req.vars "userId") = .error e →
      Handlers.answersWith (ListResolver.GetUserFromListById lib service req)
        (Handlers.errorResponse [(GetErrorMsg, 404)]
          ("failed to get user " ++ mapIndex req.vars "userId" ++ " from list with id: "
            ++ lib.String lid) e)) ∧
    (∀ lid : UUID, GetID lib req.vars "listId" = .ok lid →
      ∀ (service : ListResolver.ServiceList) (e : String),
      service.GetUsersFromListById lid = .error e →
      Handlers.answersWith (ListResolver.GetUsersFromListById lib service req)
        (Handlers.errorResponse [(GetErrorMsg, 404)]
          ("failed to get users from list with id: " ++ lib.String lid) e)) ∧
    (∀ lid tid : UUID, GetID lib req.vars "listId" = .ok lid →
      GetID lib req.vars "todoId" = .ok tid →
      ∀ (service : TodoResolver.ServiceTodo) (e : String),
      service.GetTodo tid lid = .error e →
      Handlers.answersWith (TodoResolver.GetTodo lib service req)
        (Handlers.errorResponse [(GetErrorMsg, 404)]
          ("failed to get task with id: " ++ lib.String tid ++ " from list with id: "
            ++ lib.String lid) e)) ∧
    (∀ lid : UUID, GetID lib req.vars "listId" = .ok lid →
      ∀ (service : TodoResolver.ServiceTodo) (input : Structures.TodoInput) (e : String),
      TodoResolver.validateTodo input = true →
      service.CreateTodo input lid = .error e →
      Handlers.answersWith (TodoResolver.CreateTodo lib service req (some input))
        (Handlers.errorResponse
          [(AlreadyExistsErrorMsg, 409), (NotFoundErrorMsg, 404), (CreateErrorMsg, 400)]
          ("failed to creat todo with name " ++ input.Name ++ " in list with id: "
            ++ lib.String lid) e)) ∧
    (∀ lid tid : UUID, GetID lib req.vars "listId" = .ok lid →
      GetID lib req.vars "todoId" = .ok tid →
      ∀ (service : TodoResolver.ServiceTodo) (e : String),
      service.DeleteTodo tid lid = .error e →
      Handlers.answersWith (TodoResolver.DeleteTodo lib service req)
        (Handlers.errorResponse [(NotFoundErrorMsg, 404), (DeletingErrorMsg, 400)]
          ("failed to delete todo with id: " ++ lib.String tid) e)) ∧
    (∀ lid tid : UUID, GetID lib req.vars "listId" = .ok lid →
      GetID lib req.vars "todoId" = .ok tid →
      ∀ (service : TodoResolver.ServiceTodo) (input : Structures.TodoInput) (e : String),
      service.UpdateTodo tid lid input = .error e →
      Handlers.answersWith (TodoResolver.UpdateTodo lib service req (some input))
        (Handlers.errorResponse
          [(AlreadyExistsErrorMsg, 409), (NotFoundErrorMsg, 404), (UpdateErrorMsg, 400)]
          ("failed to update todo with id: " ++ lib.String tid) e)) ∧
    (∀ lid tid : UUID, GetID lib req.vars "listId" = .ok lid →
      GetID lib req.vars "todoId" = .ok tid →
      ∀ (service : TodoResolver.ServiceTodo) (e : String),
      req.headerGet "userId" ≠ "" →
      service.AssignUserToTodo tid lid (req.headerGet "userId") = some e →
      Handlers.answersWith (TodoResolver.AssignUserToTodo lib service req)
        (Handlers.errorResponse
          [(NotFoundErrorMsg, 404), (TodoResolver.assigningErrorMsg, 400)]
          ("error assigning user(" ++ req.headerGet "userId" ++ ") to task with id: "
            ++ lib.String tid) e)) ∧
    (∀ lid tid : UUID, GetID lib req.vars "listId" = .ok lid →
      GetID lib req.vars "todoId" = .ok tid →
      ∀ (service : TodoResolver.ServiceTodo) (e : String),
      (GetUsersRights (req.headerGet "userId") = RoleAt Admin ∨
        service.GetTodoAssignee tid = req.headerGet "userId") →
      service.ChangeTodoStatus tid lid = some e →
      Handlers.answersWith (TodoResolver.ChangeTodoStatus lib service req)
        (Handlers.errorResponse
          [(NotFoundErrorMsg, 404), (TodoResolver.changingStatusErrorMsg, 400)]
          ("error changing task status with id: " ++ lib.String tid) e)) := by
  refine ⟨?_, ?_, ?_, ?_, ?_, ?_, ?_, ?_, ?_, ?_, ?_, ?_, ?_, ?_, ?_, ?_⟩
  · intro markers fallback e1 e2 h1 h2
    exact ⟨errorResponse_unrecognised _ _ _ h1, errorResponse_unrecognised _ _ _ h2⟩
  · intro markers fallback e
    exact errorResponse_cases _ _ _
  · intro lid hl service e h
    simp only [Handlers.answersWith, ListResolver.GetListById, ListResolver.getListIdInput,
      ListResolver.listId, hl, h, errorResponse_cons, errorResponse_nil]
    split_ifs <;> exact ⟨rfl, rfl⟩
  · intro service input e h
    simp only [Handlers.answersWith, ListResolver.CreateList, ListResolver.username, h,
      errorResponse_cons, errorResponse_nil]
    split_ifs <;> exact ⟨rfl, rfl⟩
  · intro lid hl service e h
    simp only [Handlers.answersWith, ListResolver.DeleteList, ListResolver.getListIdInput,
      ListResolver.listId, hl, h, errorResponse_cons, errorResponse_nil]
    split_ifs <;> exact ⟨rfl, rfl⟩
  · intro lid hl service newVal e h
    simp only [Handlers.answersWith, ListResolver.UpdateList, ListResolver.getListIdInput,
      ListResolver.listId, hl, h, errorResponse_cons, errorResponse_nil]
    split_ifs <;> exact ⟨rfl, rfl⟩
  · intro lid hl service userInput e hu h
    simp only [Handlers.answersWith, ListResolver.AddUserToList, ListResolver.getListIdInput,
      ListResolver.listId, hl, h, hu, if_false, errorResponse_cons, errorResponse_nil]
    split_ifs <;> exact ⟨rfl, rfl⟩
  · intro lid hl service e h
    simp only [Handlers.answersWith, ListResolver.RemoveUserFromList,
      ListResolver.getListIdInput, ListResolver.listId, ListResolver.username, hl, h,
      errorResponse_cons, errorResponse_nil]
    split_ifs <;> exact ⟨rfl, rfl⟩
  · intro lid hl service e hu h
    simp only [Handlers.answersWith, ListResolver.GetUserFromListById,
      ListResolver.getListIdInput, ListResolver.listId, ListResolver.username, hl, h, hu,
      if_false, errorResponse_cons, errorResponse_nil]
    split_ifs <;> exact ⟨rfl, rfl⟩
  · intro lid hl service e h
    simp only [Handlers.answersWith, ListResolver.GetUsersFromListById,
      ListResolver.getListIdInput, ListResolver.listId, hl, h, errorResponse_cons,
      errorResponse_nil]
    split_ifs <;> exact ⟨rfl, rfl⟩
  · intro lid tid hl ht service e h
    simp only [Handlers.answersWith, TodoResolver.GetTodo, TodoResolver.listId,
      TodoResolver.todoId, hl, ht, h, errorResponse_cons, errorResponse_nil]
    split_ifs <;> exact ⟨rfl, rfl⟩
  · intro lid hl service input e hv h
    simp only [Handlers.answersWith, TodoResolver.CreateTodo, TodoResolver.listId, hl, hv, h,
      Bool.not_true, Bool.false_eq_true, if_false, errorResponse_cons, errorResponse_nil]
    split_ifs <;> exact ⟨rfl, rfl⟩
  · intro lid tid hl ht service e h
    simp only [Handlers.answersWith, TodoResolver.DeleteTodo, TodoResolver.listId,
      TodoResolver.todoId, hl, ht, h, errorResponse_cons, errorResponse_nil]
    split_ifs <;> exact ⟨rfl, rfl⟩
  · intro lid tid hl ht service input e h
    simp only [Handlers.answersWith, TodoResolver.UpdateTodo, TodoResolver.listId,
      TodoResolver.todoId, hl, ht, h, errorResponse_cons, errorResponse_nil]
    split_ifs <;> exact ⟨rfl, rfl⟩
  · intro lid tid hl ht service e hu h
    simp only [Handlers.answersWith, TodoResolver.AssignUserToTodo, TodoResolver.listId,
      TodoResolver.todoId, TodoResolver.username, hl, ht, h, hu, if_false,
      errorResponse_cons, errorResponse_nil]
    split_ifs <;> exact ⟨rfl, rfl⟩
  · intro lid tid hl ht service e hg h
    simp only [Handlers.answersWith, TodoResolver.ChangeTodoStatus,
      TodoResolver.ChangeTodoStatus.change, TodoResolver.listId,
      TodoResolver.todoId, TodoResolver.username, hl, ht, h,
      errorResponse_cons, errorResponse_nil]
    rcases hg with hg | hg
    · simp only [hg, bne_self_eq_false, Bool.false_eq_true, if_false]
      split_ifs <;> exact ⟨rfl, rfl⟩
    · simp only [hg, bne_self_eq_false, Bool.false_eq_true, if_false]
      split_ifs <;> exact ⟨rfl, rfl⟩

/-- Claim C25 at a connection error of the database on the route
`DELETE /todo/api/list/{listId}`: `DeleteList` answers it with status 500 and a text that
names the list only. -/
theorem unrecognised_service_errors_are_masked_witness :
    GetID Sample.lib (Sample.request "DELETE" "Ivan" Sample.lid).vars "listId" =
      .ok Sample.uid ∧
    Handlers.answersWith
      (ListResolver.DeleteList Sample.lib
        (Sample.failingListService "pq: connection refused")
        (Sample.request "DELETE" "Ivan" Sample.lid))
      (Handlers.errorResponse [(NotFoundErrorMsg, 404), (DeletingErrorMsg, 400)]
        ("failed to delete list with id: " ++ Sample.lib.String Sample.uid)
        "pq: connection refused") ∧
    Handlers.errorResponse [(NotFoundErrorMsg, 404), (DeletingErrorMsg, 400)]
        ("failed to delete list with id: " ++ Sample.lib.String Sample.uid)
        "pq: connection refused" =
      (500, "failed to delete list with id: 01000000-0000-0000-0000-000000000000") :=
  ⟨rfl,
   (unrecognised_service_errors_are_masked Sample.lib
      (Sample.request "DELETE" "Ivan" Sample.lid)).2.2.2.2.1 Sample.uid rfl
      (Sample.failingListService "pq: connection refused") "pq: connection refused" rfl,
   by decide⟩

end TodoApp
